import Mathlib

/-!
Shallow embedding of the "paradox patchwork loop" story engine
(`src/story_node.py`, `src/player.py`, `src/utils.py`, `src/story_loop.py`).

Modelling conventions, used uniformly below:
* Python dicts are association lists `List (String × _)` with Python's
  insert-or-update semantics (`dictSet`); Python sets are duplicate-free
  lists maintained by `setAdd` (membership is what matters).
* Python values stored in heterogeneous dicts (node metadata, entry
  metadata, player variables, choice consequences) are modelled by the
  JSON-like inductive `PyVal`.
* `hashlib.md5(json.dumps(state, sort_keys=True))` is modelled as the
  key-sorted canonical rendering of the state (`hashState`): `md5` and the
  JSON renderer are deterministic functions of that canonical form, so two
  states receive equal digests exactly when their canonical forms coincide.
* The process-global `random` module is modelled as an explicit stream of
  naturals (`RNG`) threaded through every operation that draws randomness;
  `random.random() < p` is modelled as a draw below `1000*p` out of 1000.
* Operations that can raise in Python (`random.choice` on an empty
  sequence, `random.sample` with too large a sample, `str.lower` on a
  non-string truthy metadata value, appending to a non-list
  `rewrite_history`) live in `Except String`; total code stays total.
* Wall-clock timestamps (`datetime.now`) are modelled by the constant
  `nowTimestamp` and `uuid.uuid4` by a fresh-id counter carried by the
  engine: both are environment inputs that no claim inspects beyond
  being opaque strings.
-/

/-- JSON-like model of a Python value as stored in the engine's dicts. -/
inductive PyVal where
  | pnone : PyVal
  | pbool : Bool → PyVal
  | pint : Int → PyVal
  | pstr : String → PyVal
  | plist : List PyVal → PyVal
  | pdict : List (String × PyVal) → PyVal

/-- Python truthiness of a `PyVal` (`if x:`). -/
def PyVal.truthy : PyVal → Bool
  | .pnone => false
  | .pbool b => b
  | .pint n => n != 0
  | .pstr s => s != ""
  | .plist xs => !xs.isEmpty
  | .pdict kvs => !kvs.isEmpty

/-- `d.get(k)` on a Python dict modelled as an association list. -/
def dictGet? (l : List (String × α)) (k : String) : Option α :=
  (l.find? (fun p => p.1 == k)).map (·.2)

/-- `d.get(k, dflt)`. -/
def dictGetD (l : List (String × α)) (k : String) (dflt : α) : α :=
  (dictGet? l k).getD dflt

/-- `d[k] = v` on a Python dict: update in place if the key is present,
otherwise append (insertion order preserved). -/
def dictSet (l : List (String × α)) (k : String) (v : α) : List (String × α) :=
  if l.any (fun p => p.1 == k) then
    l.map (fun p => if p.1 == k then (k, v) else p)
  else l ++ [(k, v)]

/-- `s.add(x)` on a Python set modelled as a duplicate-free list. -/
def setAdd (l : List String) (x : String) : List String :=
  if x ∈ l then l else l ++ [x]

/-- `set(xs)`: deduplicate keeping first occurrences. -/
def setOfList (l : List String) : List String :=
  l.foldl setAdd []

/-- Lexicographic code-point comparison of character lists: Python's
string `<=`.  (Defined directly on code points so that it evaluates
inside the kernel.) -/
def charsLe : List Char → List Char → Bool
  | [], _ => true
  | _ :: _, [] => false
  | a :: as, b :: bs =>
    if a.toNat < b.toNat then true
    else if b.toNat < a.toNat then false
    else charsLe as bs

/-- Python string `<=` (code-point lexicographic). -/
def strLe (a b : String) : Bool := charsLe a.data b.data

/-- `strLe` as a relation, for `sorted(...)`. -/
def strLeProp (a b : String) : Prop := strLe a b = true

instance : DecidableRel strLeProp :=
  fun a b => inferInstanceAs (Decidable (strLe a b = true))

/-- Ordering of dict entries by key, used to model `json.dumps(sort_keys=True)`. -/
def pairLe (a b : String × α) : Prop := strLe a.1 b.1 = true

instance : DecidableRel (pairLe (α := α)) :=
  fun a b => inferInstanceAs (Decidable (strLe a.1 b.1 = true))

theorem charsLe_cons_iff {a b : Char} {as bs : List Char} :
    charsLe (a :: as) (b :: bs) = true ↔
      (a.toNat < b.toNat ∨ (a.toNat = b.toNat ∧ charsLe as bs = true)) := by
  simp only [charsLe]
  by_cases h₁ : a.toNat < b.toNat
  · simp [h₁]
  · by_cases h₂ : b.toNat < a.toNat
    · rw [if_neg h₁, if_pos h₂]
      constructor
      · intro h; cases h
      · rintro (h | ⟨h, -⟩) <;> omega
    · rw [if_neg h₁, if_neg h₂]
      constructor
      · intro h; exact Or.inr ⟨by omega, h⟩
      · rintro (h | ⟨-, h⟩)
        · omega
        · exact h

theorem charsLe_total : ∀ as bs : List Char,
    charsLe as bs = true ∨ charsLe bs as = true
  | [], _ => Or.inl rfl
  | _ :: _, [] => Or.inr rfl
  | a :: as, b :: bs => by
    rcases Nat.lt_trichotomy a.toNat b.toNat with h | h | h
    · exact Or.inl (charsLe_cons_iff.mpr (Or.inl h))
    · rcases charsLe_total as bs with h' | h'
      · exact Or.inl (charsLe_cons_iff.mpr (Or.inr ⟨h, h'⟩))
      · exact Or.inr (charsLe_cons_iff.mpr (Or.inr ⟨h.symm, h'⟩))
    · exact Or.inr (charsLe_cons_iff.mpr (Or.inl h))

theorem charsLe_trans : ∀ as bs cs : List Char,
    charsLe as bs = true → charsLe bs cs = true → charsLe as cs = true
  | [], _, _, _, _ => rfl
  | _ :: _, [], _, h₁, _ => by cases h₁
  | _ :: _, _ :: _, [], _, h₂ => by cases h₂
  | a :: as, b :: bs, c :: cs, h₁, h₂ => by
    rw [charsLe_cons_iff] at h₁ h₂ ⊢
    rcases h₁ with h₁ | ⟨h₁, h₁'⟩ <;> rcases h₂ with h₂ | ⟨h₂, h₂'⟩
    · exact Or.inl (by omega)
    · exact Or.inl (by omega)
    · exact Or.inl (by omega)
    · exact Or.inr ⟨by omega, charsLe_trans as bs cs h₁' h₂'⟩

theorem charsLe_antisymm : ∀ as bs : List Char,
    charsLe as bs = true → charsLe bs as = true → as = bs
  | [], [], _, _ => rfl
  | [], _ :: _, _, h₂ => by cases h₂
  | _ :: _, [], h₁, _ => by cases h₁
  | a :: as, b :: bs, h₁, h₂ => by
    rw [charsLe_cons_iff] at h₁ h₂
    have hab : a.toNat = b.toNat := by
      rcases h₁ with h₁ | ⟨h₁, -⟩ <;> rcases h₂ with h₂ | ⟨h₂, -⟩ <;> omega
    have ha : a = b := Char.ext (UInt32.ext (by simpa [Char.toNat] using hab))
    rcases h₁ with h₁ | ⟨-, h₁'⟩
    · omega
    rcases h₂ with h₂ | ⟨-, h₂'⟩
    · omega
    rw [ha, charsLe_antisymm as bs h₁' h₂']

theorem strLe_antisymm {a b : String} (h₁ : strLe a b = true)
    (h₂ : strLe b a = true) : a = b := by
  unfold strLe at h₁ h₂
  rcases a with ⟨as⟩
  rcases b with ⟨bs⟩
  rw [charsLe_antisymm as bs h₁ h₂]

instance : IsTotal (String × α) pairLe := ⟨fun a b => charsLe_total a.1.data b.1.data⟩

instance : IsTrans (String × α) pairLe :=
  ⟨fun _ _ _ h₁ h₂ => charsLe_trans _ _ _ h₁ h₂⟩

mutual
/-- Canonical form of a value: every dict, at every depth, sorted by key.
This is the part of `json.dumps(…, sort_keys=True)` that matters for
state hashing. -/
def canonVal : PyVal → PyVal
  | .pnone => .pnone
  | .pbool b => .pbool b
  | .pint n => .pint n
  | .pstr s => .pstr s
  | .plist xs => .plist (canonList xs)
  | .pdict kvs => .pdict (List.insertionSort pairLe (canonKVs kvs))

/-- Canonical forms of the members of a list value. -/
def canonList : List PyVal → List PyVal
  | [] => []
  | x :: xs => canonVal x :: canonList xs

/-- Canonical forms of the values of a dict (keys untouched; sorting is
applied by `canonVal` afterwards). -/
def canonKVs : List (String × PyVal) → List (String × PyVal)
  | [] => []
  | kv :: kvs => (kv.1, canonVal kv.2) :: canonKVs kvs
end

mutual
/-- JSON text of an (already canonical) value. -/
def render : PyVal → String
  | .pnone => "null"
  | .pbool b => cond b "true" "false"
  | .pint n => toString n
  | .pstr s => "\"" ++ s ++ "\""
  | .plist xs => "[" ++ renderList xs ++ "]"
  | .pdict kvs => "\x7b" ++ renderKVs kvs ++ "\x7d"

/-- Comma-separated rendering of list members. -/
def renderList : List PyVal → String
  | [] => ""
  | [x] => render x
  | x :: xs => render x ++ ", " ++ renderList xs

/-- Comma-separated rendering of dict entries. -/
def renderKVs : List (String × PyVal) → String
  | [] => ""
  | [kv] => "\"" ++ kv.1 ++ "\": " ++ render kv.2
  | kv :: kvs => "\"" ++ kv.1 ++ "\": " ++ render kv.2 ++ ", " ++ renderKVs kvs
end

/-- `str(x)` as used when formatting template placeholders. -/
def pyStr : PyVal → String
  | .pstr s => s
  | v => render v

/-- `HistoryTracker._hash_state`: the md5 digest of the key-sorted JSON
dump, modelled as the canonical rendering itself (see module comment). -/
def hashState (state : PyVal) : String :=
  render (canonVal state)

/-- `datetime.now().isoformat()`, modelled as a constant (wall-clock time
is an environment input no claim inspects). -/
def nowTimestamp : String := "1970-01-01T00:00:00"

/-- Explicit random source standing for Python's process-global `random`
module: an infinite stream of naturals and a cursor. -/
structure RNG where
  stream : Nat → Nat
  pos : Nat

/-- Advance the cursor past one draw. -/
def RNG.advance (r : RNG) : RNG := ⟨r.stream, r.pos + 1⟩

/-- The current raw draw. -/
def RNG.val (r : RNG) : Nat := r.stream r.pos

/-- `random.choice(seq)`: raises on an empty sequence, otherwise returns
the element selected by the current draw (uniform over indices). -/
def randChoice (r : RNG) : List α → Except String (α × RNG)
  | [] => .error "Cannot choose from empty sequence"
  | a :: as => .ok ((a :: as).getD (r.val % (as.length + 1)) a, r.advance)

/-- `random.randint(a, b)` (both endpoints inclusive, a ≤ b at all call
sites). -/
def randInt (r : RNG) (a b : Nat) : Nat × RNG :=
  (a + r.val % (b - a + 1), r.advance)

/-- `random.random() < p` for a threshold expressed in thousandths. -/
def randBelow (r : RNG) (milli : Nat) : Bool × RNG :=
  (decide (r.val % 1000 < milli), r.advance)

/-- `random.sample(l, k)`: k distinct elements; raises when k exceeds the
population size. -/
def randSample (r : RNG) (l : List α) : Nat → Except String (List α × RNG)
  | 0 => .ok ([], r)
  | k + 1 =>
    match l with
    | [] => .error "Sample larger than population"
    | a :: as =>
      let i := r.val % (as.length + 1)
      let x := (a :: as).getD i a
      match randSample r.advance ((a :: as).eraseIdx i) k with
      | .ok (xs, r') => .ok (x :: xs, r')
      | .error e => .error e

/-- Python list comprehension over fallible element decoding, as used by
`StoryGraph.from_dict`. -/
def exceptMapM (f : α → Except ε β) : List α → Except ε (List β)
  | [] => .ok []
  | x :: t => do
    let y ← f x
    let ys ← exceptMapM f t
    Except.ok (y :: ys)

/-! Character-level implementations of the string operations the sources
rely on (`str.lower`, `str.strip`, `str.split()`, `str.startswith`,
substring membership).  They are extensionally the standard library
operations, but written by structural recursion over `String.data` so
that they evaluate inside the kernel (Lean's byte-iterator based
implementations do not). -/

/-- `str.lower()` (ASCII, as used throughout the sources). -/
def pyLower (s : String) : String := ⟨s.data.map Char.toLower⟩

/-- `str.strip()`. -/
def pyTrim (s : String) : String :=
  ⟨((s.data.dropWhile Char.isWhitespace).reverse.dropWhile
      Char.isWhitespace).reverse⟩

/-- Character-list prefix test. -/
def charsPrefix : List Char → List Char → Bool
  | [], _ => true
  | _ :: _, [] => false
  | a :: as, b :: bs => a == b && charsPrefix as bs

/-- `s.startswith(pre)`. -/
def pyStartsWith (s pre : String) : Bool := charsPrefix pre.data s.data

/-- Substring membership (`needle in hay`). -/
def charsSub (needle : List Char) : List Char → Bool
  | [] => needle.isEmpty
  | c :: rest => charsPrefix needle (c :: rest) || charsSub needle rest

/-- `str.split()` worker: maximal non-whitespace runs. -/
def wsSplitAux : List Char → List Char → List (List Char)
  | [], cur => if cur.isEmpty then [] else [cur.reverse]
  | c :: cs, cur =>
    if c.isWhitespace then
      if cur.isEmpty then wsSplitAux cs [] else cur.reverse :: wsSplitAux cs []
    else wsSplitAux cs (c :: cur)

/-- Python `str.split()` with no argument: split on whitespace runs,
dropping empty pieces. -/
def pySplit (s : String) : List String := (wsSplitAux s.data []).map String.mk

/-! ## Command parsing (`src/player.py`, `CommandParser`) -/

/-- Parsed command dict: `{verb, target, original, is_command}`.  `verb` is
`none` only for empty/whitespace input (Python stores `None`). -/
structure Command where
  verb : Option String
  target : Option String
  original : String
  is_command : Bool
deriving DecidableEq

/-- `CommandParser.VERBS`: canonical verbs with their aliases, in the
source's dict order (the first alias hit wins). -/
def VERBS : List (String × List String) := [
  ("go", ["go", "walk", "move", "travel", "head"]),
  ("take", ["take", "pick", "grab", "get", "collect"]),
  ("drop", ["drop", "put", "leave", "discard"]),
  ("look", ["look", "examine", "inspect", "observe", "see"]),
  ("talk", ["talk", "speak", "ask", "tell", "say"]),
  ("use", ["use", "activate", "operate", "interact"]),
  ("open", ["open", "unlock"]),
  ("close", ["close", "shut", "lock"]),
  ("attack", ["attack", "fight", "hit", "strike"]),
  ("help", ["help", "?", "commands"]),
  ("status", ["status", "inventory", "inv", "i"]),
  ("quit", ["quit", "exit", "q"]),
  ("save", ["save"]),
  ("load", ["load", "restore"]),
  ("map", ["map", "history"])]

/-- `CommandParser.PREPOSITIONS`. -/
def PREPOSITIONS : List String :=
  ["to", "at", "with", "on", "in", "from", "the", "a", "an"]

/-- The verb-finding loop of `CommandParser.parse`: first word that is an
alias of some canonical verb, with its index. -/
def findVerb : List String → Nat → Option (String × Nat)
  | [], _ => none
  | w :: ws, i =>
    match VERBS.find? (fun p => w ∈ p.2) with
    | some p => some (p.1, i)
    | none => findVerb ws (i + 1)

/-- `CommandParser.parse`. -/
def CommandParser.parse (input_text : String) : Command :=
  let original := pyTrim input_text
  let cleaned := pyLower original
  if cleaned = "" then ⟨none, none, original, false⟩
  else
    let words := pySplit cleaned
    match findVerb words 0 with
    | some vi =>
      let target :=
        if vi.2 < words.length - 1 then
          let tws := (words.drop (vi.2 + 1)).dropWhile (· ∈ PREPOSITIONS)
          if tws.isEmpty then none else some (String.intercalate " " tws)
        else none
      ⟨some vi.1, target, original,
        vi.1 ∈ ["help", "status", "quit", "save", "load", "map"]⟩
    | none => ⟨some "freeform", some cleaned, original, false⟩

/-- `CommandParser.get_direction` alias table. -/
def directionAliases : List (String × List String) := [
  ("north", ["north", "n", "up"]),
  ("south", ["south", "s", "down"]),
  ("east", ["east", "e", "right"]),
  ("west", ["west", "w", "left"]),
  ("northeast", ["northeast", "ne"]),
  ("northwest", ["northwest", "nw"]),
  ("southeast", ["southeast", "se"]),
  ("southwest", ["southwest", "sw"])]

/-- `CommandParser.get_direction`. -/
def CommandParser.get_direction : Option String → Option String
  | none => none
  | some t =>
    if t = "" then none
    else
      let tl := pyTrim (pyLower t)
      match directionAliases.find? (fun p => tl ∈ p.2) with
      | some p => some p.1
      | none => some tl

/-! ## Player (`src/player.py`) -/

/-- `PlayerState`: immutable snapshot appended to `state_history`. -/
structure PlayerState where
  location : String
  inventory : List String
  visited_locations : List String
  choice_count : Nat
deriving DecidableEq

/-- `Player` (dataclass fields with their defaults). -/
structure Player where
  name : String := "Traveler"
  inventory : List String := []
  current_location : String := "the beginning"
  visited_locations : List String := []
  choice_history : List String := []
  action_history : List Command := []
  state_history : List PlayerState := []
  flags : List (String × Bool) := []
  -- the source field is named `variables` (a reserved word in Lean)
  vars : List (String × PyVal) := []

/-- `Player._save_state`. -/
def Player.save_state (p : Player) : Player :=
  { p with state_history := p.state_history ++
      [⟨p.current_location, p.inventory, p.visited_locations, p.choice_history.length⟩] }

/-- `Player.__post_init__`: visit the starting location and snapshot. -/
def Player.postInit (p : Player) : Player :=
  ({ p with visited_locations := setAdd p.visited_locations p.current_location }).save_state

/-- A freshly constructed `Player()` with all defaults. -/
def Player.new : Player := Player.postInit {}

/-- `Player.add_item`: case-insensitive membership, returns whether added. -/
def Player.add_item (p : Player) (item : String) : Player × Bool :=
  if (p.inventory.map pyLower).contains (pyLower item) then (p, false)
  else ({ p with inventory := p.inventory ++ [item] }, true)

/-- `Player.has_item`. -/
def Player.has_item (p : Player) (item : String) : Bool :=
  p.inventory.any (fun i => pyLower i == pyLower item)

/-- `Player.move_to`. -/
def Player.move_to (p : Player) (location : String) : Player :=
  ({ p with current_location := location,
            visited_locations := setAdd p.visited_locations location }).save_state

/-- `Player.record_choice`. -/
def Player.record_choice (p : Player) (node_id : String) (command : Command) : Player :=
  ({ p with choice_history := p.choice_history ++ [node_id],
            action_history := p.action_history ++ [command] }).save_state

/-- Last `n` elements (`l[-n:]`). -/
def lastN (l : List α) (n : Nat) : List α := l.drop (l.length - n)

/-- `Player.get_action_pattern`: the recorded verbs (each command dict has
a `verb` key, possibly holding Python `None`). -/
def Player.get_action_pattern (p : Player) : List (Option String) :=
  p.action_history.map (·.verb)

/-- `Player.detect_action_loop`. -/
def Player.detect_action_loop (p : Player) (window_size : Nat := 5) :
    Option (List (Option String)) :=
  let pattern := p.get_action_pattern
  if pattern.length < window_size * 2 then none
  else
    let recent := lastN pattern window_size
    let previous := lastN (pattern.take (pattern.length - window_size)) window_size
    if recent == previous then some recent else none

/-- Serialized `PlayerState` dict. -/
structure PStateDict where
  location : String
  inventory : List String
  visited_locations : List String
  choice_count : Nat
deriving DecidableEq

/-- `PlayerState.to_dict`. -/
def PlayerState.to_dict (s : PlayerState) : PStateDict :=
  ⟨s.location, s.inventory, s.visited_locations, s.choice_count⟩

/-- `PlayerState.from_dict`. -/
def PlayerState.from_dict (d : PStateDict) : PlayerState :=
  ⟨d.location, d.inventory, setOfList d.visited_locations, d.choice_count⟩

/-- Serialized `Player` dict (all keys `Player.to_dict` emits). -/
structure PlayerDict where
  name : String
  inventory : List String
  current_location : String
  visited_locations : List String
  choice_history : List String
  action_history : List Command
  state_history : List PStateDict
  flags : List (String × Bool)
  -- the source field is named `variables` (a reserved word in Lean)
  vars : List (String × PyVal)

/-- `Player.to_dict`. -/
def Player.to_dict (p : Player) : PlayerDict :=
  ⟨p.name, p.inventory, p.current_location, p.visited_locations,
   p.choice_history, p.action_history, p.state_history.map PlayerState.to_dict,
   p.flags, p.vars⟩

/-- `Player.from_dict`: dataclass construction (running `__post_init__`)
followed by restoring `state_history`. -/
def Player.from_dict (d : PlayerDict) : Player :=
  let base : Player :=
    { name := d.name, inventory := d.inventory,
      current_location := d.current_location,
      visited_locations := setOfList d.visited_locations,
      choice_history := d.choice_history, action_history := d.action_history,
      state_history := [], flags := d.flags, vars := d.vars }
  { base.postInit with state_history := d.state_history.map PlayerState.from_dict }

/-! ## Story nodes and the story graph (`src/story_node.py`) -/

/-- `NodeType` enum. -/
inductive NodeType where
  | NARRATIVE
  | CHOICE
  | CONSEQUENCE
  | PARADOX
  | LOOP_BREAK
  | SURREAL
deriving DecidableEq

/-- `NodeType.name`. -/
def NodeType.name : NodeType → String
  | .NARRATIVE => "NARRATIVE"
  | .CHOICE => "CHOICE"
  | .CONSEQUENCE => "CONSEQUENCE"
  | .PARADOX => "PARADOX"
  | .LOOP_BREAK => "LOOP_BREAK"
  | .SURREAL => "SURREAL"

/-- `NodeType[name]` lookup (raises `KeyError` on an unknown name). -/
def NodeType.ofName : String → Option NodeType
  | "NARRATIVE" => some .NARRATIVE
  | "CHOICE" => some .CHOICE
  | "CONSEQUENCE" => some .CONSEQUENCE
  | "PARADOX" => some .PARADOX
  | "LOOP_BREAK" => some .LOOP_BREAK
  | "SURREAL" => some .SURREAL
  | _ => none

/-- `Choice`: the availability predicate is an arbitrary function of the
player, exactly as in the source; it is not serialized. -/
structure Choice where
  text : String
  target_node_id : Option String := none
  action : String := ""
  condition : Option (Player → Bool) := none
  consequences : List (String × PyVal) := []

/-- `Choice.is_available`. -/
def Choice.is_available (c : Choice) (p : Player) : Bool :=
  match c.condition with
  | none => true
  | some f => f p

/-- Serialized `Choice` dict (note: no `condition` key). -/
structure ChoiceDict where
  text : String
  target_node_id : Option String
  action : String
  consequences : List (String × PyVal)

/-- `Choice.to_dict`. -/
def Choice.to_dict (c : Choice) : ChoiceDict :=
  ⟨c.text, c.target_node_id, c.action, c.consequences⟩

/-- `Choice.from_dict` (the availability predicate is lost: it is rebuilt
as `None`). -/
def Choice.from_dict (d : ChoiceDict) : Choice :=
  { text := d.text, target_node_id := d.target_node_id, action := d.action,
    condition := none, consequences := d.consequences }

/-- `StoryNode` (dataclass fields with their defaults; the `id` default
`uuid.uuid4()` is supplied by the engine's fresh-id counter). -/
structure StoryNode where
  id : String
  text : String := ""
  node_type : NodeType := .NARRATIVE
  choices : List Choice := []
  previous_node_ids : List String := []
  tags : List String := []
  metadata : List (String × PyVal) := []
  is_rewritten : Bool := false
  original_text : Option String := none
  rewrite_count : Nat := 0
  location : String := "unknown"
  required_items : List String := []
  grants_items : List String := []

/-- `StoryNode.get_available_choices`. -/
def StoryNode.get_available_choices (n : StoryNode) (p : Player) : List Choice :=
  n.choices.filter (fun c => c.is_available p)

/-- `StoryNode.rewrite`: preserve the original text on the first rewrite,
bump the counter, log into `metadata["rewrite_history"]` (appending to a
non-list value raises). -/
def StoryNode.rewrite (n : StoryNode) (new_text : String)
    (reason : String := "paradox") : Except String StoryNode := do
  let orig := if n.is_rewritten then n.original_text else some n.text
  let count := n.rewrite_count + 1
  let hist ←
    match dictGet? n.metadata "rewrite_history" with
    | none => Except.ok []
    | some (.plist xs) => Except.ok xs
    | some _ => Except.error "rewrite_history does not support append"
  Except.ok { n with
    text := new_text, is_rewritten := true, original_text := orig,
    rewrite_count := count,
    metadata := dictSet n.metadata "rewrite_history"
      (.plist (hist ++ [.pdict [("reason", .pstr reason),
                                ("rewrite_number", .pint count)]])) }

/-- Serialized `StoryNode` dict. -/
structure NodeDict where
  id : String
  text : String
  node_type : String
  choices : List ChoiceDict
  previous_node_ids : List String
  tags : List String
  metadata : List (String × PyVal)
  is_rewritten : Bool
  original_text : Option String
  rewrite_count : Nat
  location : String
  required_items : List String
  grants_items : List String

/-- `StoryNode.to_dict`. -/
def StoryNode.to_dict (n : StoryNode) : NodeDict :=
  ⟨n.id, n.text, n.node_type.name, n.choices.map Choice.to_dict,
   n.previous_node_ids, n.tags, n.metadata, n.is_rewritten, n.original_text,
   n.rewrite_count, n.location, n.required_items, n.grants_items⟩

/-- `StoryNode.from_dict` (an unknown `node_type` name raises `KeyError`). -/
def StoryNode.from_dict (d : NodeDict) : Except String StoryNode :=
  match NodeType.ofName d.node_type with
  | none => Except.error "unknown node type"
  | some nt => Except.ok
      { id := d.id, text := d.text, node_type := nt,
        choices := d.choices.map Choice.from_dict,
        previous_node_ids := d.previous_node_ids,
        tags := setOfList d.tags, metadata := d.metadata,
        is_rewritten := d.is_rewritten, original_text := d.original_text,
        rewrite_count := d.rewrite_count, location := d.location,
        required_items := d.required_items, grants_items := d.grants_items }

/-- `StoryGraph`: id-keyed node dict plus permanent root id. -/
structure StoryGraph where
  nodes : List (String × StoryNode) := []
  root_id : Option String := none

/-- `StoryGraph.add_node`. -/
def StoryGraph.add_node (g : StoryGraph) (n : StoryNode) : StoryGraph :=
  { nodes := dictSet g.nodes n.id n,
    root_id := match g.root_id with | none => some n.id | some r => some r }

/-- `StoryGraph.get_node`. -/
def StoryGraph.get_node (g : StoryGraph) (node_id : String) : Option StoryNode :=
  dictGet? g.nodes node_id

/-- Python `list.index` (first occurrence; unreachable-miss modelled as
the list length). -/
def pyIndex (l : List String) (x : String) : Nat := l.indexOf x

/-- Mutable state threaded through `detect_cycles`' DFS. -/
structure DfsState where
  visited : List String
  rec_stack : List String
  cycles : List (List String)

/-- The inner `dfs` of `StoryGraph.detect_cycles`, with explicit fuel (the
Python recursion depth is bounded by the number of reachable ids, so fuel
`|nodes| + 1` at every top-level call is never exhausted). -/
def dfsStep (g : StoryGraph) : Nat → String → List String → DfsState → DfsState
  | 0, _, _, st => st
  | fuel + 1, node_id, path, st =>
    let st1 : DfsState :=
      { st with visited := setAdd st.visited node_id,
                rec_stack := setAdd st.rec_stack node_id }
    let path1 := path ++ [node_id]
    let st2 :=
      match g.get_node node_id with
      | none => st1
      | some node =>
        node.choices.foldl (fun (acc : DfsState) (c : Choice) =>
          match c.target_node_id with
          | none => acc
          | some next_id =>
            if next_id = "" then acc
            else if next_id ∈ acc.visited then
              if next_id ∈ acc.rec_stack then
                { acc with cycles := acc.cycles ++
                    [path1.drop (pyIndex path1 next_id) ++ [next_id]] }
              else acc
            else dfsStep g fuel next_id path1 acc) st1
    { st2 with rec_stack := st2.rec_stack.erase node_id }

/-- `StoryGraph.detect_cycles`. -/
def StoryGraph.detect_cycles (g : StoryGraph) : List (List String) :=
  (g.nodes.foldl (fun st kn =>
      if kn.1 ∈ st.visited then st
      else dfsStep g (g.nodes.length + 1) kn.1 [] st)
    ⟨[], [], []⟩).cycles

/-- Serialized `StoryGraph` dict. -/
structure GraphDict where
  nodes : List (String × NodeDict)
  root_id : Option String

/-- `StoryGraph.to_dict`. -/
def StoryGraph.to_dict (g : StoryGraph) : GraphDict :=
  ⟨g.nodes.map (fun kn => (kn.1, kn.2.to_dict)), g.root_id⟩

/-- `StoryGraph.from_dict`: re-add every stored node (in insertion order)
into a fresh graph, then restore the stored root id. -/
def StoryGraph.from_dict (d : GraphDict) : Except String StoryGraph := do
  let ns ← exceptMapM (fun kn => StoryNode.from_dict kn.2) d.nodes
  Except.ok { (ns.foldl StoryGraph.add_node {}) with root_id := d.root_id }

/-! ## History tracking (`src/utils.py`) -/

/-- `HistoryEntry` dataclass. -/
structure HistoryEntry where
  node_id : String
  action : String
  timestamp : String := nowTimestamp
  state_hash : String := ""
  metadata : List (String × PyVal) := []

/-- One contradiction rule; the Python dicts carry either a
`same_target` or a `sequence` key (absent keys read as false). -/
structure ContradictionRule where
  action1 : String
  action2 : String
  same_target : Bool := false
  sequence : Bool := false
deriving DecidableEq

/-- `HistoryTracker._setup_default_rules`. -/
def defaultRules : List ContradictionRule := [
  { action1 := "take", action2 := "drop", same_target := true },
  { action1 := "open", action2 := "close", same_target := true },
  { action1 := "go north", action2 := "go south", sequence := true },
  { action1 := "go east", action2 := "go west", sequence := true },
  { action1 := "attack", action2 := "talk", same_target := true }]

/-- `HistoryTracker`. -/
structure HistoryTracker where
  entries : List HistoryEntry := []
  state_hashes : List String := []
  contradiction_rules : List ContradictionRule := defaultRules

/-- `HistoryTracker.add_entry`. -/
def HistoryTracker.add_entry (t : HistoryTracker) (node_id action : String)
    (state : PyVal) (metadata : List (String × PyVal) := []) :
    HistoryTracker × HistoryEntry :=
  let h := hashState state
  let e : HistoryEntry :=
    { node_id := node_id, action := action, state_hash := h, metadata := metadata }
  ({ t with entries := t.entries ++ [e], state_hashes := setAdd t.state_hashes h }, e)

/-- `HistoryTracker.detect_loop`: hash the candidate state; if seen,
return the index of the first entry carrying that hash. -/
def HistoryTracker.detect_loop (t : HistoryTracker) (current_state : PyVal) :
    Option Nat :=
  let h := hashState current_state
  if h ∈ t.state_hashes then t.entries.findIdx? (fun e => e.state_hash == h)
  else none

/-- The pattern/previous comparison of `detect_node_loop` at one length:
`recent[-L:] == recent[-2L:-L]`. -/
def nodeLoopMatch (recent : List String) (L : Nat) : Bool :=
  lastN recent L == lastN (recent.take (recent.length - L)) L

/-- The `recent_nodes` slice of `detect_node_loop`: the node ids of the
last `window_size` entries. -/
def recentNodes (t : HistoryTracker) (window_size : Nat) : List String :=
  lastN (t.entries.map (·.node_id)) window_size

/-- `HistoryTracker.detect_node_loop`: the `for pattern_length in
range(2, window_size // 2 + 1)` search is the first match over
`List.range' 2 (window_size / 2 - 1)`. -/
def HistoryTracker.detect_node_loop (t : HistoryTracker)
    (window_size : Nat := 10) : Option (List String) :=
  if t.entries.length < window_size then none
  else
    match (List.range' 2 (window_size / 2 - 1)).find? (nodeLoopMatch (recentNodes t window_size)) with
    | some L => some (lastN (recentNodes t window_size) L)
    | none => none

/-- The `target` metadata of a prior entry, lowercased:
`entry.metadata.get("target", "") if entry.metadata else ""` followed by
`raw.lower() if raw else ""` (`lower` on a truthy non-string raises). -/
def prevTargetE (e : HistoryEntry) : Except String String :=
  let raw : PyVal :=
    if e.metadata.isEmpty then .pstr "" else dictGetD e.metadata "target" (.pstr "")
  if raw.truthy then
    match raw with
    | .pstr s => Except.ok (pyLower s)
    | _ => Except.error "lower on non-string target"
  else Except.ok ""

/-- Contradiction descriptor.  The Python dict for a same-target match
carries keys `type/current_action/previous_action/target/rule`; the
sequence variant omits `target` (modelled as `none`). -/
structure Contradiction where
  ctype : String
  current_action : String
  previous_action : String
  target : Option String
  rule : ContradictionRule

/-- The inner entry scan of `detect_contradiction` for one rule, over the
last-20 entries in reverse order. -/
def scanEntries (rule : ContradictionRule) (action_lower target_lower : String)
    (action : String) (target : Option String) :
    List HistoryEntry → Except String (Option Contradiction)
  | [] => Except.ok none
  | e :: rest => do
    let prev_action := pyLower e.action
    let prev_target ← prevTargetE e
    let is_match :=
      (pyStartsWith action_lower rule.action1 && pyStartsWith prev_action rule.action2)
      || (pyStartsWith action_lower rule.action2 && pyStartsWith prev_action rule.action1)
    if is_match then
      if rule.same_target && target_lower != "" && prev_target != "" then
        if target_lower == prev_target then
          Except.ok (some ⟨"contradiction", action, e.action, target, rule⟩)
        else scanEntries rule action_lower target_lower action target rest
      else if rule.sequence then
        Except.ok (some ⟨"sequence_contradiction", action, e.action, none, rule⟩)
      else scanEntries rule action_lower target_lower action target rest
    else scanEntries rule action_lower target_lower action target rest

/-- The outer rule loop of `detect_contradiction`: first qualifying
rule+entry wins. -/
def ruleScan (entriesRev : List HistoryEntry) (action_lower target_lower : String)
    (action : String) (target : Option String) :
    List ContradictionRule → Except String (Option Contradiction)
  | [] => Except.ok none
  | rule :: rest =>
    if pyStartsWith action_lower rule.action1 || pyStartsWith action_lower rule.action2 then do
      match ← scanEntries rule action_lower target_lower action target entriesRev with
      | some c => Except.ok (some c)
      | none => ruleScan entriesRev action_lower target_lower action target rest
    else ruleScan entriesRev action_lower target_lower action target rest

/-- `HistoryTracker.detect_contradiction`. -/
def HistoryTracker.detect_contradiction (t : HistoryTracker) (action : String)
    (target : Option String := none) : Except String (Option Contradiction) :=
  let action_lower := pyLower action
  let target_lower := match target with | some s => pyLower s | none => ""
  ruleScan ((lastN t.entries 20).reverse) action_lower target_lower action target
    t.contradiction_rules

/-- Serialized `HistoryEntry` dict. -/
structure EntryDict where
  node_id : String
  action : String
  timestamp : String
  state_hash : String
  metadata : List (String × PyVal)

/-- `HistoryEntry.to_dict`. -/
def HistoryEntry.to_dict (e : HistoryEntry) : EntryDict :=
  ⟨e.node_id, e.action, e.timestamp, e.state_hash, e.metadata⟩

/-- `HistoryEntry.from_dict`. -/
def HistoryEntry.from_dict (d : EntryDict) : HistoryEntry :=
  ⟨d.node_id, d.action, d.timestamp, d.state_hash, d.metadata⟩

/-- Serialized `HistoryTracker` dict. -/
structure TrackerDict where
  entries : List EntryDict
  state_hashes : List String

/-- `HistoryTracker.to_dict` (`list(state_hashes)` is the underlying
duplicate-free list). -/
def HistoryTracker.to_dict (t : HistoryTracker) : TrackerDict :=
  ⟨t.entries.map HistoryEntry.to_dict, t.state_hashes⟩

/-- `HistoryTracker.from_dict`: fresh tracker (default rules), entries and
hash set restored. -/
def HistoryTracker.from_dict (d : TrackerDict) : HistoryTracker :=
  { entries := d.entries.map HistoryEntry.from_dict,
    state_hashes := setOfList d.state_hashes,
    contradiction_rules := defaultRules }

/-! ## Story engine (`src/story_loop.py`)

ASCII apostrophes inside narrative template texts are transcribed as the
typographic apostrophe to keep the file's lexical profile simple; no claim
inspects these texts beyond membership in their template family. -/

/-- `ParadoxType` enum. -/
inductive ParadoxType where
  | TEMPORAL_LOOP
  | CONTRADICTION
  | IMPOSSIBLE_STATE
  | NARRATIVE_BREAK
  | CAUSAL_PARADOX
deriving DecidableEq

/-- `ParadoxType.name`. -/
def ParadoxType.name : ParadoxType → String
  | .TEMPORAL_LOOP => "TEMPORAL_LOOP"
  | .CONTRADICTION => "CONTRADICTION"
  | .IMPOSSIBLE_STATE => "IMPOSSIBLE_STATE"
  | .NARRATIVE_BREAK => "NARRATIVE_BREAK"
  | .CAUSAL_PARADOX => "CAUSAL_PARADOX"

/-- `Paradox` dataclass. -/
structure Paradox where
  paradox_type : ParadoxType
  description : String
  affected_nodes : List String := []
  trigger_action : String := ""
  severity : Nat := 5
  metadata : List (String × PyVal) := []

/-- `StoryGenerator.TEMPLATES["location_descriptions"]`. -/
def locationDescriptions : List (String × String) := [
  ("the beginning", "an endless white expanse where stories are born"),
  ("the crossroads", "a place where infinite paths converge and diverge"),
  ("the library", "towering shelves of unwritten books stretch into infinity"),
  ("the mirror hall", "reflections show versions of yourself that made different choices"),
  ("the garden", "flowers bloom in colors that don’t exist, narrating forgotten tales"),
  ("the void", "pure nothingness that somehow contains everything"),
  ("the clock tower", "gears turn backwards and forwards, keeping time with no time"),
  ("the market", "traders barter in memories and sell bottled possibilities")]

/-- The known location labels, in table order. -/
def allLocations : List String := locationDescriptions.map (·.1)

/-- `utils.get_random_surreal_event`'s fixed event pool. -/
def surrealEvents : List String := [
  "The walls begin to whisper your previous choices back to you.",
  "A clock runs backwards, erasing moments that never existed.",
  "Your shadow steps forward and takes your place momentarily.",
  "The ground becomes the ceiling, and you realize you’ve always been falling upward.",
  "A door appears where there was none, labeled ’This Way to Yesterday’.",
  "The colors in the room swap places, and suddenly blue tastes like Wednesday.",
  "A previous version of yourself walks past, ignoring your existence.",
  "The narrative hiccups, and for a moment, you exist in two places at once.",
  "Time folds like origami, and you catch a glimpse of all possible outcomes.",
  "The story pauses to catch its breath, and you hear the author’s pen scratching.",
  "Reality buffering... please wait while the universe recalculates.",
  "A footnote appears in mid-air: *This event may or may not have happened.*",
  "The scenery flickers like a candle, revealing the stage behind the world.",
  "Your inventory temporarily includes ’one existential crisis’ before vanishing.",
  "The ground remembers being sky and becomes confused about its purpose."]

/-- `utils.get_random_surreal_event`. -/
def get_random_surreal_event (r : RNG) : Except String (String × RNG) :=
  randChoice r surrealEvents

/-- `StoryGenerator.generate_intro`: pick one of the three intro templates
and substitute the location description. -/
def StoryGenerator.generate_intro (r : RNG) (location : String) :
    Except String (String × RNG) :=
  let ld := dictGetD locationDescriptions location ("a place called " ++ location)
  randChoice r [
    "You find yourself in " ++ ld ++ ". The air feels thick with possibility, as if reality itself is waiting to see what you’ll do next.",
    "The world around you shifts into focus. You are standing in " ++ ld ++ ", though how you got here remains a mystery wrapped in fog.",
    ld ++ " materializes around you. Time seems uncertain here, as if past and future are merely suggestions."]

/-- `StoryGenerator.generate_paradox_resolution`. -/
def StoryGenerator.generate_paradox_resolution (r : RNG) (p : Paradox)
    (_player : Player) : Except String (String × RNG) := do
  let old_state := match dictGet? p.metadata "old_state" with
    | some v => pyStr v | none => "one reality"
  let new_state := match dictGet? p.metadata "new_state" with
    | some v => pyStr v | none => "another"
  let contradiction := p.trigger_action
  let resolution := "both states exist in superposition until observed"
  let (text, r) ← randChoice r [
    "Reality shudders and rewrites itself. What once was " ++ old_state ++
      " has always been " ++ new_state ++ ". You remember it both ways simultaneously.",
    "The universe course-corrects. " ++ contradiction ++
      " never happened, or rather, it happened differently. Your memories blur and reform.",
    "A ripple passes through existence. The paradox resolves itself by declaring that " ++
      resolution ++ ". This was always true."]
  let (b, r) := randBelow r 400
  if b then do
    let (ev, r) ← get_random_surreal_event r
    Except.ok (text ++ "\n\n" ++ ev, r)
  else Except.ok (text, r)

/-- Python `needle in haystack` substring test. -/
def substrOf (needle hay : String) : Bool :=
  charsSub needle.data hay.data

/-- `StoryGenerator.generate_choices`: 2–4 sampled directions, an optional
location-keyed special action, and a constant look-around choice. -/
def StoryGenerator.generate_choices (r : RNG) (location : String)
    (_player : Player) : Except String (List Choice × RNG) := do
  let directions := ["north", "south", "east", "west"]
  let (k, r) := randInt r 2 4
  let (available_dirs, r) ← randSample r directions k
  let choices := available_dirs.map (fun d =>
    ({ text := "Go " ++ d, action := "go " ++ d } : Choice))
  let choices := choices ++
    (if substrOf "library" location then
      [({ text := "Read a book", action := "read book" } : Choice)]
     else if substrOf "market" location then
      [({ text := "Browse the wares", action := "browse" } : Choice)]
     else if substrOf "mirror" location then
      [({ text := "Touch the mirror", action := "touch mirror" } : Choice)]
     else [])
  Except.ok (choices ++ [({ text := "Look around", action := "look" } : Choice)], r)

/-- `str(x)` on a maybe-`None` string (`f"{verb}"` renders `None`). -/
def pyShowOptStr : Option String → String
  | some s => s
  | none => "None"

/-- A maybe-`None` string as a stored dict value. -/
def optStrVal : Option String → PyVal
  | some s => .pstr s
  | none => .pnone

/-- `", ".join(pattern)`: raises `TypeError` when the pattern contains a
recorded `None` verb. -/
def pyJoinVerbs : List (Option String) → Except String (List String)
  | [] => Except.ok []
  | none :: _ => Except.error "join on None verb"
  | some s :: rest => do
    let tail ← pyJoinVerbs rest
    Except.ok (s :: tail)

/-- The contradiction-rule dict as stored into paradox metadata. -/
def ContradictionRule.toPyVal (r : ContradictionRule) : PyVal :=
  .pdict ([("action1", .pstr r.action1), ("action2", .pstr r.action2)] ++
    (if r.same_target then [("same_target", .pbool true)] else []) ++
    (if r.sequence then [("sequence", .pbool true)] else []))

/-- The contradiction descriptor dict as stored into paradox metadata
(the sequence variant has no `target` key). -/
def Contradiction.toDict (c : Contradiction) : List (String × PyVal) :=
  [("type", .pstr c.ctype), ("current_action", .pstr c.current_action),
   ("previous_action", .pstr c.previous_action)] ++
  (match c.target with | some t => [("target", .pstr t)] | none => []) ++
  [("rule", c.rule.toPyVal)]

/-- `utils.format_story_text`'s greedy line filler (the observable core of
`textwrap.fill` on already-normalized single-space text). -/
def greedyWrapAux (width : Nat) (acc : List String × String) (w : String) :
    List String × String :=
  let (lines, cur) := acc
  if cur = "" then (lines, w)
  else if cur.length + 1 + w.length ≤ width then (lines, cur ++ " " ++ w)
  else (lines ++ [cur], w)

/-- `textwrap.fill(para, width)` on a whitespace-normalized paragraph. -/
def textwrapFill (width : Nat) (s : String) : String :=
  let lc := (pySplit s).foldl (greedyWrapAux width) ([], "")
  String.intercalate "\n" (if lc.2 = "" then lc.1 else lc.1 ++ [lc.2])

/-- `utils.format_story_text`. -/
def format_story_text (text : String) (width : Nat := 70) : String :=
  String.intercalate "\n\n" ((text.splitOn "\n\n").map (fun para =>
    textwrapFill width (String.intercalate " " (pySplit para))))

/-- The `InfiniteStoryLoop` engine state.  `current_node` is modelled by
value; only its `id` is read on the code paths under claim, so the Python
aliasing of the node object into the graph is observationally irrelevant
here.  The `GameLogger` is pure out-of-scope console/file glue and is not
modelled.  `next_uuid` is the fresh-id source standing for `uuid.uuid4`. -/
structure Engine where
  story_graph : StoryGraph
  current_node : Option StoryNode
  player : Player
  history : HistoryTracker
  paradox_count : Nat
  rewrite_count : Nat
  rng : RNG
  next_uuid : Nat

/-- Draw a fresh node id. -/
def Engine.freshId (σ : Engine) : String × Engine :=
  ("uuid-" ++ toString σ.next_uuid, { σ with next_uuid := σ.next_uuid + 1 })

/-- Engine construction (`__init__` plus `_initialize_story`). -/
def Engine.init (r : RNG) (player : Player := Player.new) : Except String Engine := do
  let (intro_text, r) ← StoryGenerator.generate_intro r "the beginning"
  let start_node : StoryNode := {
    id := "uuid-0", text := intro_text, node_type := .NARRATIVE,
    location := "the beginning",
    choices := [
      { text := "Walk towards the light", action := "go north" },
      { text := "Follow the shadows", action := "go south" },
      { text := "Listen to the whispers", action := "listen" },
      { text := "Question your existence", action := "think" }] }
  Except.ok {
    story_graph := StoryGraph.add_node {} start_node,
    current_node := some start_node,
    player := player, history := {}, paradox_count := 0, rewrite_count := 0,
    rng := r, next_uuid := 1 }

/-- Response descriptor returned by `process_input` (`paradox_type`,
`severity`, `location` keys are present only for the response types that
carry them). -/
structure Response where
  rtype : String
  text : String
  choices : List String
  paradox_type : Option String := none
  severity : Option Nat := none
  location : Option String := none

/-- Pad right with spaces (`f"{x:<w}"`). -/
def padR (s : String) (w : Nat) : String :=
  s ++ String.mk (List.replicate (w - s.length) ' ')

/-- A run of one character. -/
def repChar (c : Char) (n : Nat) : String := String.mk (List.replicate n c)

/-- `Player.get_status` (console box rendering). -/
def Player.get_status (p : Player) : String :=
  let top := [
    "╔" ++ repChar '═' 40 ++ "╗",
    "║ Player: " ++ padR p.name 30 ++ "║",
    "║ Location: " ++ padR p.current_location 28 ++ "║",
    "╠" ++ repChar '═' 40 ++ "╣",
    "║ Inventory:" ++ padR "" 29 ++ "║"]
  let inv :=
    if p.inventory.isEmpty then ["║   (empty)" ++ padR "" 29 ++ "║"]
    else p.inventory.map (fun item => "║   • " ++ padR item 34 ++ "║")
  let bottom := [
    "╠" ++ repChar '═' 40 ++ "╣",
    "║ Locations visited: " ++ padR (toString p.visited_locations.length) 19 ++ "║",
    "║ Choices made: " ++ padR (toString p.choice_history.length) 24 ++ "║",
    "╚" ++ repChar '═' 40 ++ "╝"]
  String.intercalate "\n" (top ++ inv ++ bottom)

/-- `_get_help_text` (a fixed console banner; content abridged — it is
never inspected beyond being the text of a `system` response). -/
def helpText : String :=
  "INFINITE STORY LOOP - HELP\ngo / look / take / drop / use / talk\nstatus, help, map, save, load, quit"

/-- `_get_story_map` (console box rendering). -/
def Engine.get_story_map (σ : Engine) : String :=
  let top := [
    "╔" ++ repChar '═' 70 ++ "╗",
    "║                         STORY MAP                                    ║",
    "╠" ++ repChar '═' 70 ++ "╣",
    "║ VISITED LOCATIONS:                                                   ║"]
  let locs := σ.player.visited_locations.map (fun loc =>
    let ind := if loc = σ.player.current_location then "→" else " "
    "║  " ++ ind ++ " " ++ padR loc 64 ++ "║")
  let stats := [
    "╠" ++ repChar '═' 70 ++ "╣",
    "║ STATISTICS:                                                          ║",
    "║   Choices made: " ++ padR (toString σ.player.choice_history.length) 52 ++ "║",
    "║   Paradoxes encountered: " ++ padR (toString σ.paradox_count) 43 ++ "║",
    "║   Story rewrites: " ++ padR (toString σ.rewrite_count) 50 ++ "║",
    "║   Story nodes created: " ++ padR (toString σ.story_graph.nodes.length) 45 ++ "║",
    "╚" ++ repChar '═' 70 ++ "╝"]
  String.intercalate "\n" (top ++ locs ++ stats)

/-- `_handle_system_command`. -/
def Engine.handle_system_command (σ : Engine) (command : Command) : Response :=
  match command.verb with
  | some "help" => { rtype := "system", text := helpText, choices := [] }
  | some "status" => { rtype := "system", text := σ.player.get_status, choices := [] }
  | some "quit" =>
    { rtype := "quit",
      text := "The story folds itself away, waiting for another time...",
      choices := [] }
  | some "map" => { rtype := "system", text := σ.get_story_map, choices := [] }
  | some "save" => { rtype := "save", text := "Saving story state...", choices := [] }
  | some "load" => { rtype := "load", text := "Loading story state...", choices := [] }
  | v => { rtype := "error", text := "Unknown command: " ++ pyShowOptStr v, choices := [] }

/-- `_get_state_snapshot` (`sorted(inventory)` is a stable sort on the
item strings). -/
def Engine.get_state_snapshot (σ : Engine) : PyVal :=
  .pdict [
    ("location", .pstr σ.player.current_location),
    ("inventory", .plist ((List.insertionSort strLeProp σ.player.inventory).map .pstr)),
    ("node_id", match σ.current_node with | some n => .pstr n.id | none => .pnone),
    ("choice_count", .pint σ.player.choice_history.length)]

/-- `_detect_paradox`: fixed priority order — action loop, node-visit
loop, contradiction, impossible `use`. -/
def Engine.detect_paradox (σ : Engine) (command : Command) :
    Except String (Option Paradox) := do
  match σ.player.detect_action_loop 5 with
  | some action_loop => do
    let strs ← pyJoinVerbs action_loop
    Except.ok (some {
      paradox_type := .TEMPORAL_LOOP,
      description := "You find yourself repeating the same actions: " ++
        String.intercalate ", " strs,
      trigger_action := command.original,
      severity := 6,
      metadata := [("loop_pattern", .plist (action_loop.map optStrVal))] })
  | none =>
  match σ.history.detect_node_loop 10 with
  | some node_loop =>
    Except.ok (some {
      paradox_type := .TEMPORAL_LOOP,
      description := "The story seems to be repeating itself...",
      affected_nodes := node_loop,
      trigger_action := command.original,
      severity := 7 })
  | none => do
  let action := pyTrim (pyShowOptStr command.verb ++ " " ++ (command.target.getD ""))
  match ← σ.history.detect_contradiction action command.target with
  | some contradiction =>
    Except.ok (some {
      paradox_type := .CONTRADICTION,
      description := "Your action contradicts a previous choice...",
      trigger_action := command.original,
      severity := 8,
      metadata := contradiction.toDict })
  | none =>
    if command.verb == some "use" then
      match command.target with
      | some target =>
        if target ≠ "" ∧ ¬ (σ.player.has_item target = true) then
          Except.ok (some {
            paradox_type := .IMPOSSIBLE_STATE,
            description := "You try to use " ++ target ++
              ", but you don’t have it... or do you?",
            trigger_action := command.original,
            severity := 5,
            metadata := [("missing_item", .pstr target)] })
        else Except.ok none
      | none => Except.ok none
    else Except.ok none

/-- `_rewrite_node`: bump the global rewrite counter, rewrite the node in
place (the graph holds the same object in Python; here the updated node is
stored back under its id). -/
def Engine.rewrite_node (σ : Engine) (node : StoryNode) (paradox : Paradox) :
    Except String Engine := do
  let new_text :=
    if paradox.paradox_type = .TEMPORAL_LOOP then
      node.text ++ "\n\n[The narrative shifts subtly. This moment is different now, though you can’t quite say how.]"
    else if paradox.paradox_type = .CONTRADICTION then
      node.text ++ "\n\n[Reality rewrites itself. The contradiction resolves into a strange new truth that somehow makes sense.]"
    else node.text ++ "\n\n[The story adjusts itself...]"
  let node' ← node.rewrite new_text paradox.paradox_type.name
  Except.ok { σ with
    rewrite_count := σ.rewrite_count + 1,
    story_graph := { σ.story_graph with
      nodes := dictSet σ.story_graph.nodes node'.id node' } }

/-- The affected-nodes loop of `_handle_paradox`: rewrite every affected
node that is present in the graph, silently skipping stale ids. -/
def rewriteAffected (paradox : Paradox) : Engine → List String → Except String Engine
  | σ, [] => Except.ok σ
  | σ, nid :: rest => do
    match σ.story_graph.get_node nid with
    | some node => do
      let σ' ← σ.rewrite_node node paradox
      rewriteAffected paradox σ' rest
    | none => rewriteAffected paradox σ rest

/-- `_generate_post_paradox_choices`. -/
def generate_post_paradox_choices (paradox : Paradox) : List Choice :=
  [({ text := "Accept the new reality", action := "accept" } : Choice),
   ({ text := "Question what just happened", action := "question" } : Choice)] ++
  (if paradox.paradox_type = .TEMPORAL_LOOP then
    [({ text := "Try to break the cycle", action := "break cycle" } : Choice)]
   else if paradox.paradox_type = .CONTRADICTION then
    [({ text := "Embrace the contradiction", action := "embrace" } : Choice)]
   else []) ++
  [({ text := "Move on", action := "go forward" } : Choice)]

/-- `_handle_paradox`. -/
def Engine.handle_paradox (σ : Engine) (paradox : Paradox) (_command : Command) :
    Except String (Response × Engine) := do
  let σ := { σ with paradox_count := σ.paradox_count + 1 }
  let (resolution_text, r) ←
    StoryGenerator.generate_paradox_resolution σ.rng paradox σ.player
  let σ := { σ with rng := r }
  let σ ← rewriteAffected paradox σ paradox.affected_nodes
  let iσ := σ.freshId
  let σ := iσ.2
  let resolution_node : StoryNode := {
    id := iσ.1, text := resolution_text, node_type := .PARADOX,
    location := σ.player.current_location,
    previous_node_ids := match σ.current_node with | some n => [n.id] | none => [],
    choices := generate_post_paradox_choices paradox }
  let σ := { σ with
    story_graph := σ.story_graph.add_node resolution_node,
    current_node := some resolution_node }
  let te := σ.history.add_entry resolution_node.id
    ("paradox_resolution:" ++ paradox.paradox_type.name)
    σ.get_state_snapshot
    [("paradox", .pstr paradox.description)]
  let σ := { σ with history := te.1 }
  Except.ok ({
    rtype := "paradox",
    text := format_story_text resolution_text,
    choices := resolution_node.choices.map (·.text),
    paradox_type := some paradox.paradox_type.name,
    severity := some paradox.severity }, σ)

/-- Python `str.title()` on space-separated lowercase words. -/
def pyTitle (s : String) : String :=
  String.intercalate " " ((s.splitOn " ").map String.capitalize)

/-- `_generate_story_text`: template family keyed by verb (unrecognized
or missing verbs fall back to the `go` family), then an independent 15%
chance of a surreal suffix. -/
def goTemplates (target : Option String) (location : String) : List String :=
  let tOr (d : String) : String :=
    match target with | some t => if t = "" then d else t | none => d
  ["You move towards " ++ tOr "the unknown" ++
     ". The scenery shifts around you as you enter " ++ location ++ ".",
   "Your footsteps echo as you travel " ++ tOr "onward" ++
     ". You find yourself in " ++ location ++ ".",
   "The path leads you " ++ tOr "forward" ++ ". " ++ pyTitle location ++
     " materializes around you."]

/-- `_generate_story_text`'s `templates` dict (each entry's f-strings are
evaluated at dict construction, so it is a value per call). -/
def storyTemplates (target : Option String) (location : String) :
    List (String × List String) :=
  let tOr (d : String) : String :=
    match target with | some t => if t = "" then d else t | none => d
  [("go", goTemplates target location),
   ("look", [
      "You examine your surroundings carefully. " ++
        (dictGetD locationDescriptions location location).capitalize ++ ".",
      "You take in the details of " ++ location ++
        ". Everything seems both familiar and strange."]),
   ("take", [
      "You reach for " ++ tOr "something" ++ ". It feels significant in your hands.",
      "You pick up " ++ tOr "the object" ++ ". Reality seems to acknowledge your choice."]),
   ("talk", [
      "You speak to " ++ tOr "the silence" ++ ". Words echo in ways they shouldn’t.",
      "You attempt conversation with " ++ tOr "the void" ++ ". Something listens."]),
   ("think", [
      "You pause to consider your existence. The story waits patiently for your next move.",
      "Thoughts spiral through your mind. Are you the author or the authored?"]),
   ("listen", [
      "You strain to hear the whispers of the narrative. They speak of paths not yet taken.",
      "The silence hums with unwritten possibilities. You catch fragments of other stories."])]

/-- `_generate_story_text`: `templates.get(verb, templates.get("go"))`,
one uniform template draw, then an independent 15% surreal suffix. -/
def Engine.generate_story_text (r : RNG) (verb : Option String)
    (target : Option String) (location : String) : Except String (String × RNG) := do
  let templates := storyTemplates target location
  let verb_templates :=
    match verb with
    | some v => dictGetD templates v (dictGetD templates "go" [])
    | none => dictGetD templates "go" []
  let (text, r) ← randChoice r verb_templates
  let (b, r) := randBelow r 150
  if b then do
    let (ev, r) ← get_random_surreal_event r
    Except.ok (text ++ "\n\n" ++ ev, r)
  else Except.ok (text, r)

/-- `_get_location_in_direction`'s direction table. -/
def locationMap : List (String × List String) := [
  ("north", ["the library", "the clock tower", "the void"]),
  ("south", ["the garden", "the market", "the beginning"]),
  ("east", ["the mirror hall", "the crossroads"]),
  ("west", ["the crossroads", "the garden"])]

/-- `_get_location_in_direction`: mapped directions draw from their table
row; anything else draws from the full known-location list. -/
def Engine.get_location_in_direction (r : RNG) (direction : Option String) :
    Except String (String × RNG) :=
  match direction with
  | some d =>
    match dictGet? locationMap d with
    | some locs => randChoice r locs
    | none => randChoice r allLocations
  | none => randChoice r allLocations

/-- The item-grant loop of `_advance_story`. -/
def grantItems (σ : Engine) : List String → Engine
  | [] => σ
  | item :: rest =>
    grantItems { σ with player := (σ.player.add_item item).1 } rest

/-- `_generate_next_node`. -/
def Engine.generate_next_node (σ : Engine) (command : Command) :
    Except String (StoryNode × Engine) := do
  let verb := command.verb
  let target := command.target
  let (new_location, r) ←
    if verb == some "go" then
      Engine.get_location_in_direction σ.rng (CommandParser.get_direction target)
    else Except.ok (σ.player.current_location, σ.rng)
  let (text, r) ← Engine.generate_story_text r verb target new_location
  let iσ := ({ σ with rng := r } : Engine).freshId
  let σ := iσ.2
  let node : StoryNode :=
    { id := iσ.1, text := text, node_type := .NARRATIVE, location := new_location }
  let (choices, r) ← StoryGenerator.generate_choices σ.rng new_location σ.player
  let node := { node with choices := choices }
  let (b, r) := randBelow r 200
  if b then do
    let (item, r) ← randChoice r ["strange key", "glowing orb", "ancient map", "cryptic note"]
    Except.ok ({ node with
      grants_items := node.grants_items ++ [item],
      text := node.text ++ "\n\nYou notice something interesting and pick it up." },
      { σ with rng := r })
  else Except.ok (node, { σ with rng := r })

/-- `_advance_story`. -/
def Engine.advance_story (σ : Engine) (command : Command) :
    Except String (Response × Engine) := do
  let cur_id := match σ.current_node with | some n => n.id | none => "unknown"
  let σ := { σ with player := σ.player.record_choice cur_id command }
  let nσ ← σ.generate_next_node command
  let σ := nσ.2
  let next_node :=
    match σ.current_node with
    | some n => { nσ.1 with previous_node_ids := nσ.1.previous_node_ids ++ [n.id] }
    | none => nσ.1
  let σ := { σ with
    story_graph := σ.story_graph.add_node next_node,
    current_node := some next_node }
  let σ := { σ with player := σ.player.move_to next_node.location }
  let σ := grantItems σ next_node.grants_items
  let te := σ.history.add_entry next_node.id command.original
    σ.get_state_snapshot
    [("verb", optStrVal command.verb), ("target", optStrVal command.target)]
  let σ := { σ with history := te.1 }
  Except.ok ({
    rtype := "story",
    text := format_story_text next_node.text,
    choices := (next_node.get_available_choices σ.player).map (·.text),
    location := some next_node.location }, σ)

/-- `InfiniteStoryLoop.process_input`: system-command dispatch, else
paradox detection, else normal advancement. -/
def Engine.process_input (σ : Engine) (raw_input : String) :
    Except String (Response × Engine) := do
  let command := CommandParser.parse raw_input
  if command.is_command then Except.ok (σ.handle_system_command command, σ)
  else do
    match ← σ.detect_paradox command with
    | some paradox => σ.handle_paradox paradox command
    | none => σ.advance_story command

/-! ## Shared lemmas -/

@[simp]
theorem exc_bind_ok (a : α) (f : α → Except ε β) :
    (Except.ok a >>= f) = f a := rfl

@[simp]
theorem exc_bind_err (e : ε) (f : α → Except ε β) :
    ((Except.error e : Except ε α) >>= f) = Except.error e := rfl

theorem mem_setAdd {l : List String} {x y : String} :
    y ∈ setAdd l x ↔ y ∈ l ∨ y = x := by
  unfold setAdd
  by_cases hx : x ∈ l
  · simp only [hx, if_true]
    constructor
    · exact fun h => Or.inl h
    · rintro (h | rfl)
      · exact h
      · exact hx
  · simp [hx, List.mem_append]

theorem mem_foldl_setAdd {x : String} :
    ∀ (l acc : List String), x ∈ l.foldl setAdd acc ↔ x ∈ acc ∨ x ∈ l
  | [], acc => by simp
  | y :: t, acc => by
    rw [List.foldl_cons, mem_foldl_setAdd t (setAdd acc y), mem_setAdd]
    simp only [List.mem_cons]
    tauto

theorem mem_setOfList {l : List String} {x : String} :
    x ∈ setOfList l ↔ x ∈ l := by
  unfold setOfList
  rw [mem_foldl_setAdd]
  simp

theorem dictGet?_cons (p : String × α) (t : List (String × α)) (k : String) :
    dictGet? (p :: t) k = if p.1 == k then some p.2 else dictGet? t k := by
  by_cases h : (p.1 == k) = true
  · simp [dictGet?, List.find?_cons_of_pos _ h, h]
  · simp [dictGet?, List.find?_cons_of_neg _ h, h]

theorem dictGet?_dictSet_self :
    ∀ (l : List (String × α)) (k : String) (v : α),
      dictGet? (dictSet l k v) k = some v := by
  intro l k v
  induction l with
  | nil => simp [dictSet, dictGet?, List.find?]
  | cons p t ih =>
    by_cases hp : (p.1 == k) = true
    · have hcond : ((p :: t).any fun q => q.1 == k) = true := by
        show (p.1 == k || t.any fun q => q.1 == k) = true
        rw [hp, Bool.true_or]
      simp only [dictSet, hcond, if_true, List.map_cons]
      rw [if_pos hp, dictGet?_cons]
      simp
    · have hp' : (p.1 == k) = false := by simpa using hp
      by_cases ht : (t.any fun q => q.1 == k) = true
      · have hcond : ((p :: t).any fun q => q.1 == k) = true := by
          show (p.1 == k || t.any fun q => q.1 == k) = true
          rw [ht, Bool.or_true]
        simp only [dictSet, hcond, if_true, List.map_cons]
        rw [if_neg hp, dictGet?_cons, if_neg hp]
        have ih' := ih
        simp only [dictSet, ht, if_true] at ih'
        exact ih'
      · have ht' : (t.any fun q => q.1 == k) = false := Bool.eq_false_iff.mpr ht
        have hcond : ((p :: t).any fun q => q.1 == k) = false := by
          show (p.1 == k || t.any fun q => q.1 == k) = false
          rw [hp', ht', Bool.or_false]
        simp only [dictSet, hcond, Bool.false_eq_true, if_false,
          List.cons_append]
        rw [dictGet?_cons, if_neg hp]
        have ih' := ih
        simp only [dictSet, ht', Bool.false_eq_true, if_false] at ih'
        exact ih'

theorem getD_mem {l : List α} {i : Nat} {d : α} (h : i < l.length) :
    l.getD i d ∈ l := by
  rw [List.getD_eq_getElem?_getD, List.getElem?_eq_getElem h]
  exact List.getElem_mem h

theorem randChoice_ok {r : RNG} {l : List α} (h : l ≠ []) :
    ∃ x r', randChoice r l = .ok (x, r') ∧ x ∈ l := by
  match l with
  | [] => exact absurd rfl h
  | a :: as =>
    refine ⟨_, _, rfl, ?_⟩
    exact getD_mem (by simpa using Nat.mod_lt _ (Nat.succ_pos as.length))

theorem randSample_ok :
    ∀ (k : Nat) (l : List α) (r : RNG), k ≤ l.length →
      ∃ xs r', randSample r l k = .ok (xs, r')
  | 0, l, r, _ => ⟨[], r, rfl⟩
  | k + 1, [], _, h => by simp at h
  | k + 1, a :: as, r, h => by
    have hi : r.val % (as.length + 1) < (a :: as).length := by
      simpa using Nat.mod_lt _ (Nat.succ_pos as.length)
    have hk : k ≤ ((a :: as).eraseIdx (r.val % (as.length + 1))).length := by
      rw [List.length_eraseIdx, if_pos hi]
      simpa using Nat.le_of_succ_le_succ (by simpa using h)
    obtain ⟨xs, r', hr⟩ := randSample_ok k _ r.advance hk
    refine ⟨(a :: as).getD (r.val % (as.length + 1)) a :: xs, r', ?_⟩
    simp only [randSample, hr]

theorem exceptMapM_ok {f : α → Except ε β} {g : α → β} :
    ∀ l : List α, (∀ x ∈ l, f x = .ok (g x)) → exceptMapM f l = .ok (l.map g)
  | [], _ => rfl
  | x :: t, h => by
    have hx := h x (List.mem_cons_self x t)
    have ht := exceptMapM_ok t (fun y hy => h y (List.mem_cons_of_mem x hy))
    simp [exceptMapM, hx, ht]

/-! ## C8: the root id is the first added node's id, permanently -/

theorem add_node_root_preserved {g : StoryGraph} {rid : String}
    (h : g.root_id = some rid) (n : StoryNode) :
    (g.add_node n).root_id = some rid := by
  simp [StoryGraph.add_node, h]

theorem foldl_add_node_root {rid : String} :
    ∀ (ns : List StoryNode) (g : StoryGraph), g.root_id = some rid →
      (ns.foldl StoryGraph.add_node g).root_id = some rid
  | [], _, h => h
  | n :: t, g, h =>
    foldl_add_node_root t (g.add_node n) (add_node_root_preserved h n)

/-- C8.  For every non-empty sequence of `add_node` calls on a `StoryGraph`
starting from empty, the graph's root id equals the id of the first node
added and is unchanged by every subsequent `add_node` call. -/
theorem C8_root_id_is_first_node_and_stable (n : StoryNode) (ns : List StoryNode) :
    (ns.foldl StoryGraph.add_node (StoryGraph.add_node {} n)).root_id = some n.id :=
  foldl_add_node_root ns _ rfl

/-! ## C7: rewrite bookkeeping -/

/-- `metadata["rewrite_history"]`, when present, supports `append` (the
engine only ever stores a list there). -/
def RewriteHistOK (n : StoryNode) : Prop :=
  dictGet? n.metadata "rewrite_history" = none ∨
    ∃ xs, dictGet? n.metadata "rewrite_history" = some (.plist xs)

theorem rewrite_ok {n : StoryNode} (h : RewriteHistOK n) (t reason : String) :
    ∃ n', n.rewrite t reason = .ok n' := by
  unfold StoryNode.rewrite
  rcases h with h | ⟨xs, h⟩ <;> rw [h] <;> exact ⟨_, rfl⟩

theorem rewrite_fields {n n' : StoryNode} {t reason : String}
    (h : n.rewrite t reason = .ok n') :
    n'.rewrite_count = n.rewrite_count + 1 ∧ n'.is_rewritten = true ∧
      n'.text = t ∧
      n'.original_text = (if n.is_rewritten then n.original_text else some n.text) ∧
      n'.id = n.id ∧ RewriteHistOK n' := by
  unfold StoryNode.rewrite at h
  rcases hh : dictGet? n.metadata "rewrite_history" with _ | v <;> rw [hh] at h
  · simp only [exc_bind_ok] at h
    cases h
    exact ⟨rfl, rfl, rfl, rfl, rfl, Or.inr ⟨_, dictGet?_dictSet_self ..⟩⟩
  · cases v
    case plist xs =>
      simp only [exc_bind_ok] at h
      cases h
      exact ⟨rfl, rfl, rfl, rfl, rfl, Or.inr ⟨_, dictGet?_dictSet_self ..⟩⟩
    all_goals simp only [exc_bind_err] at h; exact absurd h (by simp)

/-- C7.  For every not-yet-rewritten StoryNode, after two `rewrite` calls
`original_text` equals the node's text as it was before the first rewrite
(never the intermediate text) and `rewrite_count` equals 2; in general
`original_text` is set on the first rewrite and never overwritten
afterwards, and `rewrite_count` strictly increases on every rewrite. -/
theorem C7_rewrite_original_once_and_count :
    (∀ (n : StoryNode) (t₁ r₁ t₂ r₂ : String), RewriteHistOK n →
      n.is_rewritten = false → n.rewrite_count = 0 →
      ∃ n₁ n₂, n.rewrite t₁ r₁ = .ok n₁ ∧ n₁.rewrite t₂ r₂ = .ok n₂ ∧
        n₂.original_text = some n.text ∧ n₂.rewrite_count = 2) ∧
    (∀ (n : StoryNode) (t r : String) (n' : StoryNode), n.rewrite t r = .ok n' →
      n'.rewrite_count = n.rewrite_count + 1 ∧ n'.is_rewritten = true ∧
        (n.is_rewritten = false → n'.original_text = some n.text) ∧
        (n.is_rewritten = true → n'.original_text = n.original_text)) := by
  constructor
  · intro n t₁ r₁ t₂ r₂ hok h0 hc
    obtain ⟨n₁, h₁⟩ := rewrite_ok hok t₁ r₁
    obtain ⟨c₁, w₁, _, o₁, _, hok₁⟩ := rewrite_fields h₁
    obtain ⟨n₂, h₂⟩ := rewrite_ok hok₁ t₂ r₂
    obtain ⟨c₂, _, _, o₂, _, _⟩ := rewrite_fields h₂
    refine ⟨n₁, n₂, h₁, h₂, ?_, ?_⟩
    · rw [o₂, if_pos w₁, o₁, if_neg (by simp [h0])]
    · omega
  · intro n t r n' h
    obtain ⟨c, w, _, o, _, _⟩ := rewrite_fields h
    refine ⟨c, w, ?_, ?_⟩
    · intro hf; rw [o, if_neg (by simp [hf])]
    · intro ht; rw [o, if_pos ht]

/-- Witness for C7 at a concrete fresh node. -/
theorem C7_rewrite_witness :
    ∃ n₁ n₂, ({ id := "w0", text := "t0" } : StoryNode).rewrite "t1" "paradox" = .ok n₁ ∧
      n₁.rewrite "t2" "loop" = .ok n₂ ∧
      n₂.original_text = some "t0" ∧ n₂.rewrite_count = 2 :=
  C7_rewrite_original_once_and_count.1 { id := "w0", text := "t0" }
    "t1" "paradox" "t2" "loop" (Or.inl rfl) rfl rfl

/-! ## C5: detect_node_loop -/

theorem find?_range'_eq_some {f : Nat → Bool} :
    ∀ (n a x : Nat),
      (List.range' a n).find? f = some x ↔
        (a ≤ x ∧ x < a + n ∧ f x = true ∧ ∀ y, a ≤ y → y < x → f y = false) := by
  intro n
  induction n with
  | zero =>
    intro a x
    simp only [List.range', List.find?]
    constructor
    · intro h; cases h
    · rintro ⟨h₁, h₂, -, -⟩; omega
  | succ n ih =>
    intro a x
    rw [List.range'_succ]
    by_cases ha : f a = true
    · rw [List.find?_cons_of_pos _ ha]
      constructor
      · rintro ⟨⟩
        exact ⟨Nat.le_refl a, by omega, ha, fun y h₁ h₂ => by omega⟩
      · rintro ⟨h₁, -, -, hmin⟩
        rcases Nat.eq_or_lt_of_le h₁ with rfl | hlt
        · rfl
        · exact absurd (hmin a (Nat.le_refl a) hlt) (by simp [ha])
    · have ha' : f a = false := Bool.eq_false_iff.mpr ha
      rw [List.find?_cons_of_neg _ ha, ih (a + 1) x]
      constructor
      · rintro ⟨h₁, h₂, h₃, hmin⟩
        refine ⟨by omega, by omega, h₃, fun y hy₁ hy₂ => ?_⟩
        rcases Nat.eq_or_lt_of_le hy₁ with rfl | hy
        · exact ha'
        · exact hmin y hy hy₂
      · rintro ⟨h₁, h₂, h₃, hmin⟩
        have hxa : x ≠ a := by
          rintro rfl
          rw [h₃] at ha'
          cases ha'
        refine ⟨by omega, by omega, h₃, fun y hy₁ hy₂ => hmin y (by omega) hy₂⟩

/-- General characterization of `detect_node_loop`: it fires exactly at
the smallest pattern length `L` in `[2, window/2]` at which the last `L`
node ids repeat the preceding `L`, and only when at least `window_size`
entries exist. -/
theorem detect_node_loop_iff (t : HistoryTracker) (w : Nat) (p : List String) :
    t.detect_node_loop w = some p ↔
      (¬ t.entries.length < w ∧ ∃ L, 2 ≤ L ∧ L ≤ w / 2 ∧
        nodeLoopMatch (recentNodes t w) L = true ∧
        p = lastN (recentNodes t w) L ∧
        ∀ L', 2 ≤ L' → L' < L → nodeLoopMatch (recentNodes t w) L' = false) := by
  unfold HistoryTracker.detect_node_loop
  by_cases hlen : t.entries.length < w
  · simp [hlen]
  · simp only [hlen, if_false]
    rcases hf : (List.range' 2 (w / 2 - 1)).find? (nodeLoopMatch (recentNodes t w))
      with _ | L
    · rw [List.find?_eq_none] at hf
      simp only [not_false_iff, true_and]
      constructor
      · intro h; cases h
      · rintro ⟨L, hL₂, hLw, hmatch, -, -⟩
        have hmem : L ∈ List.range' 2 (w / 2 - 1) := by
          rw [List.mem_range'_1]
          omega
        exact absurd hmatch (by simpa using hf L hmem)
    · rw [find?_range'_eq_some] at hf
      obtain ⟨h₂, hub, hmatch, hmin⟩ := hf
      simp only [Option.some.injEq, not_false_iff, true_and]
      constructor
      · rintro rfl
        exact ⟨L, h₂, by omega, hmatch, rfl, fun L' a b => hmin L' a b⟩
      · rintro ⟨L', hL₂', hub', hmatch', rfl, hmin'⟩
        have : L = L' := by
          rcases Nat.lt_trichotomy L L' with h | h | h
          · exact absurd hmatch (by simp [hmin' L h₂ h])
          · exact h
          · exact absurd hmatch' (by simp [hmin L' hL₂' h])
        rw [this]

/-- Record a bare visit sequence through `add_entry` (proof scaffolding
for exercising the loop detectors). -/
def trackerOfNodeIds (ids : List String) : HistoryTracker :=
  ids.foldl (fun t nid => (t.add_entry nid "step" (.pdict []) []).1) {}

/-- C5.  `detect_node_loop` with window 6 returns `[n1,n2,n3]` on the
visit sequence `[n1,n2,n3,n1,n2,n3]`, returns absent when the six ids are
pairwise distinct, returns absent whenever fewer than `window` entries
exist, and in general fires exactly at the smallest length `L` in
`[2, window/2]` at which the last `L` ids equal the `L` ids immediately
preceding them. -/
theorem C5_detect_node_loop :
    ((trackerOfNodeIds ["n1", "n2", "n3", "n1", "n2", "n3"]).detect_node_loop 6 =
      some ["n1", "n2", "n3"]) ∧
    (∀ (t : HistoryTracker) (a b c d e f : String),
      t.entries.map (·.node_id) = [a, b, c, d, e, f] →
      ([a, b, c, d, e, f] : List String).Nodup →
      t.detect_node_loop 6 = none) ∧
    (∀ (t : HistoryTracker) (w : Nat), t.entries.length < w →
      t.detect_node_loop w = none) ∧
    (∀ (t : HistoryTracker) (w : Nat) (p : List String),
      t.detect_node_loop w = some p ↔
        (¬ t.entries.length < w ∧ ∃ L, 2 ≤ L ∧ L ≤ w / 2 ∧
          nodeLoopMatch (recentNodes t w) L = true ∧
          p = lastN (recentNodes t w) L ∧
          ∀ L', 2 ≤ L' → L' < L → nodeLoopMatch (recentNodes t w) L' = false)) := by
  refine ⟨rfl, ?_, ?_, detect_node_loop_iff⟩
  · intro t a b c d e f hmap hnd
    simp only [List.nodup_cons, List.mem_cons, List.mem_singleton,
      List.not_mem_nil, or_false, not_or, List.nodup_nil, and_true] at hnd
    have hlen6 : t.entries.length = 6 := by
      simpa using congrArg List.length hmap
    have hrec : recentNodes t 6 = [a, b, c, d, e, f] := by
      unfold recentNodes lastN
      rw [hmap]
      rfl
    have h2 : nodeLoopMatch [a, b, c, d, e, f] 2 = false := by
      show (([e, f] : List String) == [c, d]) = false
      rw [beq_eq_false_iff_ne]
      simp only [ne_eq, List.cons.injEq, and_true, not_and]
      rintro rfl rfl
      simp at hnd
    have h3 : nodeLoopMatch [a, b, c, d, e, f] 3 = false := by
      show (([d, e, f] : List String) == [a, b, c]) = false
      rw [beq_eq_false_iff_ne]
      simp only [ne_eq, List.cons.injEq, and_true, not_and]
      rintro rfl rfl rfl
      simp at hnd
    unfold HistoryTracker.detect_node_loop
    rw [if_neg (by omega), hrec]
    rw [show List.range' 2 (6 / 2 - 1) = [2, 3] from rfl]
    rw [List.find?_cons_of_neg _ (by simp [h2]), List.find?_cons_of_neg _ (by simp [h3])]
    rfl
  · intro t w h
    unfold HistoryTracker.detect_node_loop
    rw [if_pos h]

/-- Witness for C5 at concrete trackers, discharging each hypothesis. -/
theorem C5_detect_node_loop_witness :
    ((trackerOfNodeIds ["a", "b", "c", "d", "e", "f"]).detect_node_loop 6 = none) ∧
    ((trackerOfNodeIds ["x"]).detect_node_loop 6 = none) ∧
    ((trackerOfNodeIds ["n1", "n2", "n3", "n1", "n2", "n3"]).detect_node_loop 6 =
        some ["n1", "n2", "n3"] ↔
      (¬ (trackerOfNodeIds ["n1", "n2", "n3", "n1", "n2", "n3"]).entries.length < 6 ∧
        ∃ L, 2 ≤ L ∧ L ≤ 6 / 2 ∧
          nodeLoopMatch (recentNodes (trackerOfNodeIds ["n1", "n2", "n3", "n1", "n2", "n3"]) 6) L = true ∧
          ["n1", "n2", "n3"] = lastN (recentNodes (trackerOfNodeIds ["n1", "n2", "n3", "n1", "n2", "n3"]) 6) L ∧
          ∀ L', 2 ≤ L' → L' < L →
            nodeLoopMatch (recentNodes (trackerOfNodeIds ["n1", "n2", "n3", "n1", "n2", "n3"]) 6) L' = false)) :=
  ⟨C5_detect_node_loop.2.1 _ "a" "b" "c" "d" "e" "f" rfl (by decide),
   C5_detect_node_loop.2.2.1 _ 6 (by decide),
   C5_detect_node_loop.2.2.2 _ 6 ["n1", "n2", "n3"]⟩

/-! ## C6: detect_loop and the key-sorted state hash -/

theorem findIdx?_spec {p : α → Bool} :
    ∀ (l : List α) (i : Nat),
      l.findIdx? p = some i ↔
        ((∃ x, l.get? i = some x ∧ p x = true) ∧
          ∀ j, j < i → ∀ y, l.get? j = some y → p y = false) := by
  intro l
  induction l with
  | nil =>
    intro i
    constructor
    · intro h; cases h
    · rintro ⟨⟨x, hx, -⟩, -⟩; cases hx
  | cons a t ih =>
    intro i
    rw [List.findIdx?_cons]
    by_cases ha : p a = true
    · rw [if_pos ha]
      cases i with
      | zero =>
        constructor
        · intro _; exact ⟨⟨a, rfl, ha⟩, fun j hj y hy => by omega⟩
        · intro _; rfl
      | succ i' =>
        constructor
        · intro h; cases h
        · rintro ⟨-, hmin⟩
          exact absurd (hmin 0 (Nat.succ_pos _) a rfl) (by simp [ha])
    · rw [if_neg ha]
      have ha' : p a = false := Bool.eq_false_iff.mpr ha
      rw [show (0 + 1 : Nat) = 1 from rfl]
      rw [show (1 : Nat) = 0 + 1 from rfl, List.findIdx?_succ]
      cases i with
      | zero =>
        constructor
        · intro h
          rcases hx : t.findIdx? p with _ | k <;> rw [hx] at h <;> cases h
        · rintro ⟨⟨x, hx, hpx⟩, -⟩
          cases hx
          exact absurd hpx (by simp [ha'])
      | succ i' =>
        constructor
        · intro h
          have h' : t.findIdx? p = some i' := by
            rcases hx : t.findIdx? p with _ | k <;> rw [hx] at h
            · cases h
            · cases h; rfl
          obtain ⟨⟨x, hx, hpx⟩, hmin⟩ := (ih i').mp h'
          refine ⟨⟨x, hx, hpx⟩, fun j hj y hy => ?_⟩
          cases j with
          | zero => cases hy; exact ha'
          | succ j' => exact hmin j' (by omega) y hy
        · rintro ⟨⟨x, hx, hpx⟩, hmin⟩
          have h' : t.findIdx? p = some i' :=
            (ih i').mpr ⟨⟨x, hx, hpx⟩,
              fun j hj y hy => hmin (j + 1) (by omega) y hy⟩
          rw [h']
          rfl

theorem eq_of_keys_nodup :
    ∀ {l : List (String × α)}, (l.map Prod.fst).Nodup →
      ∀ {x y : String × α}, x ∈ l → y ∈ l → x.1 = y.1 → x = y := by
  intro l
  induction l with
  | nil => intro _ x y hx; cases hx
  | cons p t ih =>
    intro h x y hx hy hk
    rw [List.map_cons, List.nodup_cons] at h
    rcases List.mem_cons.mp hx with rfl | hx' <;>
      rcases List.mem_cons.mp hy with rfl | hy'
    · rfl
    · exact absurd (hk ▸ List.mem_map_of_mem Prod.fst hy') h.1
    · exact absurd (hk ▸ List.mem_map_of_mem Prod.fst hx') h.1
    · exact ih h.2 hx' hy' hk

theorem eq_of_perm_of_sorted_keys :
    ∀ (l₁ l₂ : List (String × α)), l₁.Perm l₂ → l₁.Sorted pairLe →
      l₂.Sorted pairLe → (l₁.map Prod.fst).Nodup → l₁ = l₂
  | [], l₂, hp, _, _, _ => hp.nil_eq
  | a :: t₁, [], hp, _, _, _ => by
    have := hp.symm.nil_eq
    cases this
  | a :: t₁, b :: t₂, hp, hs₁, hs₂, hnd => by
    have hab : a = b := by
      have ha₂ : a ∈ b :: t₂ := hp.mem_iff.mp (List.mem_cons_self a t₁)
      have hb₁ : b ∈ a :: t₁ := hp.mem_iff.mpr (List.mem_cons_self b t₂)
      rcases List.mem_cons.mp ha₂ with h | ha'
      · exact h
      rcases List.mem_cons.mp hb₁ with h | hb'
      · exact h.symm
      have h₁ : pairLe a b := List.rel_of_sorted_cons hs₁ b hb'
      have h₂ : pairLe b a := List.rel_of_sorted_cons hs₂ a ha'
      exact eq_of_keys_nodup hnd (List.mem_cons_self a t₁)
        (List.mem_cons_of_mem a hb') (strLe_antisymm h₁ h₂)
    subst hab
    have htail := eq_of_perm_of_sorted_keys t₁ t₂ hp.cons_inv hs₁.of_cons hs₂.of_cons
      (by rw [List.map_cons, List.nodup_cons] at hnd; exact hnd.2)
    rw [htail]

theorem canonKVs_eq_map :
    ∀ kvs : List (String × PyVal),
      canonKVs kvs = kvs.map (fun kv => (kv.1, canonVal kv.2))
  | [] => rfl
  | kv :: kvs => by rw [canonKVs, canonKVs_eq_map kvs, List.map_cons]

theorem hashState_perm {kvs₁ kvs₂ : List (String × PyVal)}
    (hp : kvs₁.Perm kvs₂) (hnd : (kvs₁.map Prod.fst).Nodup) :
    hashState (.pdict kvs₁) = hashState (.pdict kvs₂) := by
  unfold hashState
  congr 1
  show PyVal.pdict (List.insertionSort pairLe (canonKVs kvs₁)) =
    PyVal.pdict (List.insertionSort pairLe (canonKVs kvs₂))
  congr 1
  have hmapperm : (canonKVs kvs₁).Perm (canonKVs kvs₂) := by
    rw [canonKVs_eq_map, canonKVs_eq_map]
    exact hp.map _
  have hkeys : (canonKVs kvs₁).map Prod.fst = kvs₁.map Prod.fst := by
    rw [canonKVs_eq_map, List.map_map]
    rfl
  apply eq_of_perm_of_sorted_keys
  · exact (List.perm_insertionSort pairLe (canonKVs kvs₁)).trans
      (hmapperm.trans (List.perm_insertionSort pairLe (canonKVs kvs₂)).symm)
  · exact List.sorted_insertionSort pairLe _
  · exact List.sorted_insertionSort pairLe _
  · have h₁ : ((canonKVs kvs₁).map Prod.fst).Nodup := by rw [hkeys]; exact hnd
    exact (((List.perm_insertionSort pairLe (canonKVs kvs₁)).map Prod.fst).nodup_iff).mpr h₁

/-- The tracker's seen-hash set covers every recorded entry (maintained by
`add_entry`, which inserts each new entry's hash). -/
def HashSync (t : HistoryTracker) : Prop :=
  ∀ e ∈ t.entries, e.state_hash ∈ t.state_hashes

/-- First state of the C6 concrete scenario. -/
def c6s1 : PyVal := .pdict [("a", .pint 1), ("b", .pstr "x")]

/-- `c6s1` with its keys written in the opposite order. -/
def c6s1perm : PyVal := .pdict [("b", .pstr "x"), ("a", .pint 1)]

/-- Second (distinct) state of the C6 concrete scenario. -/
def c6s2 : PyVal := .pdict [("a", .pint 2)]

/-- Tracker after visiting S1, S2, S1-again. -/
def c6tracker : HistoryTracker :=
  (((((HistoryTracker.add_entry {} "n1" "a" c6s1 []).1).add_entry
    "n2" "b" c6s2 []).1).add_entry "n3" "c" c6s1 []).1

/-- C6.  `detect_loop` returns the index of the earliest entry whose
recorded state hash equals the hash of the queried state and absent when
no entry's hash matches (on hash-synchronized trackers); the hash is
key-order independent; and after entries for S1, S2, S1-again, querying
S1 (under either key order) returns index 0. -/
theorem C6_detect_loop_first_index :
    (∀ (t : HistoryTracker) (state : PyVal), HashSync t →
      ((∀ i, t.detect_loop state = some i ↔
          ((∃ e, t.entries.get? i = some e ∧ e.state_hash = hashState state) ∧
            ∀ j, j < i → ∀ e', t.entries.get? j = some e' →
              e'.state_hash ≠ hashState state)) ∧
        (t.detect_loop state = none ↔
          ∀ e ∈ t.entries, e.state_hash ≠ hashState state))) ∧
    (∀ kvs₁ kvs₂ : List (String × PyVal), kvs₁.Perm kvs₂ →
      (kvs₁.map Prod.fst).Nodup →
      hashState (.pdict kvs₁) = hashState (.pdict kvs₂)) ∧
    (c6tracker.detect_loop c6s1 = some 0 ∧ c6tracker.detect_loop c6s1perm = some 0) := by
  refine ⟨?_, fun kvs₁ kvs₂ hp hnd => hashState_perm hp hnd, by rfl, by rfl⟩
  intro t state hsync
  unfold HistoryTracker.detect_loop
  by_cases hmem : hashState state ∈ t.state_hashes
  · rw [if_pos hmem]
    constructor
    · intro i
      rw [findIdx?_spec]
      constructor
      · rintro ⟨⟨e, he, hpe⟩, hmin⟩
        refine ⟨⟨e, he, by simpa using hpe⟩, fun j hj e' he' => ?_⟩
        simpa using hmin j hj e' he'
      · rintro ⟨⟨e, he, hpe⟩, hmin⟩
        refine ⟨⟨e, he, by simpa using hpe⟩, fun j hj e' he' => ?_⟩
        simpa using hmin j hj e' he'
    · rw [List.findIdx?_eq_none_iff]
      constructor
      · intro h e he
        simpa using h e he
      · intro h e he
        simpa using h e he
  · rw [if_neg hmem]
    constructor
    · intro i
      constructor
      · intro h; cases h
      · rintro ⟨⟨e, he, hpe⟩, -⟩
        exact absurd (hpe ▸ hsync e (List.get?_mem he)) hmem
    · simp only [true_iff]
      intro e he hpe
      exact absurd (hpe ▸ hsync e he) hmem

/-- Witness for C6 at the concrete scenario, discharging each hypothesis. -/
theorem C6_detect_loop_witness :
    ((∀ i, c6tracker.detect_loop c6s2 = some i ↔
        ((∃ e, c6tracker.entries.get? i = some e ∧ e.state_hash = hashState c6s2) ∧
          ∀ j, j < i → ∀ e', c6tracker.entries.get? j = some e' →
            e'.state_hash ≠ hashState c6s2)) ∧
      (c6tracker.detect_loop c6s2 = none ↔
        ∀ e ∈ c6tracker.entries, e.state_hash ≠ hashState c6s2)) ∧
    hashState (.pdict [("a", PyVal.pint 1), ("b", PyVal.pstr "x")]) =
      hashState (.pdict [("b", PyVal.pstr "x"), ("a", PyVal.pint 1)]) :=
  ⟨C6_detect_loop_first_index.1 c6tracker c6s2 (by unfold HashSync; decide),
   C6_detect_loop_first_index.2.1 [("a", PyVal.pint 1), ("b", PyVal.pstr "x")]
     [("b", PyVal.pstr "x"), ("a", PyVal.pint 1)]
     (List.Perm.swap ("b", PyVal.pstr "x") ("a", PyVal.pint 1) [])
     (by decide)⟩

/-! ## C4: detect_contradiction -/

/-- The scan over recent entries only produces a descriptor for a
same-target rule when the current target and the matched entry's stored
target metadata are both non-empty and equal after lowercasing. -/
theorem scanEntries_same_target {rule : ContradictionRule} {al tl action : String}
    {target : Option String} (hx : rule.same_target = true → rule.sequence = false) :
    ∀ {es : List HistoryEntry} {c : Contradiction},
      scanEntries rule al tl action target es = .ok (some c) →
      c.rule = rule ∧ c.current_action = action ∧
        (rule.same_target = true →
          tl ≠ "" ∧ ∃ e ∈ es, e.action = c.previous_action ∧
            ∃ pt, prevTargetE e = .ok pt ∧ pt ≠ "" ∧ pt = tl)
  | [], c, h => by simp [scanEntries] at h
  | e :: rest, c, h => by
    rw [scanEntries] at h
    rcases hpt : prevTargetE e with pe | pt <;> rw [hpt] at h
    · simp at h
    · simp only [exc_bind_ok] at h
      split at h
      · split at h
        case isTrue hguard =>
          split at h
          case isTrue heq =>
            have hguard' : (rule.same_target = true ∧ tl ≠ "") ∧ pt ≠ "" := by
              simpa [Bool.and_eq_true] using hguard
            rw [Except.ok.injEq, Option.some.injEq] at h
            subst h
            refine ⟨rfl, rfl, fun _ => ⟨hguard'.1.2,
              e, List.mem_cons_self e rest, rfl, pt, hpt, hguard'.2, ?_⟩⟩
            exact (by simpa using heq : tl = pt).symm
          case isFalse heq =>
            obtain ⟨h₁, h₂, h₃⟩ := scanEntries_same_target hx h
            exact ⟨h₁, h₂, fun hst =>
              (h₃ hst).imp id (fun ⟨e', he', rest'⟩ =>
                ⟨e', List.mem_cons_of_mem e he', rest'⟩)⟩
        case isFalse hguard =>
          split at h
          case isTrue hseq =>
            rw [Except.ok.injEq, Option.some.injEq] at h
            subst h
            refine ⟨rfl, rfl, fun hst => absurd hseq (by simp [hx hst])⟩
          case isFalse hseq =>
            obtain ⟨h₁, h₂, h₃⟩ := scanEntries_same_target hx h
            exact ⟨h₁, h₂, fun hst =>
              (h₃ hst).imp id (fun ⟨e', he', rest'⟩ =>
                ⟨e', List.mem_cons_of_mem e he', rest'⟩)⟩
      · obtain ⟨h₁, h₂, h₃⟩ := scanEntries_same_target hx h
        exact ⟨h₁, h₂, fun hst =>
          (h₃ hst).imp id (fun ⟨e', he', rest'⟩ =>
            ⟨e', List.mem_cons_of_mem e he', rest'⟩)⟩

/-- A fired contradiction always comes from one of the scanned rules. -/
theorem ruleScan_some {esRev : List HistoryEntry} {al tl action : String}
    {target : Option String} :
    ∀ {rules : List ContradictionRule} {c : Contradiction},
      ruleScan esRev al tl action target rules = .ok (some c) →
      ∃ rule ∈ rules, scanEntries rule al tl action target esRev = .ok (some c)
  | [], c, h => by simp [ruleScan] at h
  | rule :: rest, c, h => by
    rw [ruleScan] at h
    split at h
    · rcases hscan : scanEntries rule al tl action target esRev with pe | o <;>
        rw [hscan] at h
      · simp at h
      · rcases o with _ | c'
        · simp only [exc_bind_ok] at h
          obtain ⟨r', hr', hs'⟩ := ruleScan_some h
          exact ⟨r', List.mem_cons_of_mem rule hr', hs'⟩
        · simp only [exc_bind_ok, Except.ok.injEq, Option.some.injEq] at h
          subst h
          exact ⟨rule, List.mem_cons_self rule rest, hscan⟩
    · obtain ⟨r', hr', hs'⟩ := ruleScan_some h
      exact ⟨r', List.mem_cons_of_mem rule hr', hs'⟩

/-- Tracker with a single `take sword` entry carrying `target: "sword"`. -/
def c4tracker : HistoryTracker :=
  (HistoryTracker.add_entry {} "n1" "take sword" (.pdict [])
    [("target", .pstr "sword")]).1

/-- C4.  After an entry `take sword` with target metadata `sword`,
`detect_contradiction "drop sword" "sword"` fires and
`detect_contradiction "take shield" "shield"` does not; in general a
same-target rule fires only when both the current target and the matched
entry's stored target metadata are non-empty and equal case-insensitively. -/
theorem C4_detect_contradiction_same_target :
    (∃ c, c4tracker.detect_contradiction "drop sword" (some "sword") = .ok (some c)) ∧
    (c4tracker.detect_contradiction "take shield" (some "shield") = .ok none) ∧
    (∀ (t : HistoryTracker) (action : String) (target : Option String)
        (c : Contradiction),
      t.contradiction_rules = defaultRules →
      t.detect_contradiction action target = .ok (some c) →
      c.rule.same_target = true →
      (match target with | some s => pyLower s | none => "") ≠ "" ∧
        ∃ e ∈ lastN t.entries 20, e.action = c.previous_action ∧
          ∃ pt, prevTargetE e = .ok pt ∧ pt ≠ "" ∧
            pt = (match target with | some s => pyLower s | none => "")) := by
  refine ⟨⟨⟨"contradiction", "drop sword", "take sword", some "sword",
    { action1 := "take", action2 := "drop", same_target := true }⟩, rfl⟩, rfl, ?_⟩
  intro t action target c hrules h hst
  unfold HistoryTracker.detect_contradiction at h
  rw [hrules] at h
  obtain ⟨rule, hrule, hscan⟩ := ruleScan_some h
  have hx : rule.same_target = true → rule.sequence = false := by
    simp only [defaultRules, List.mem_cons, List.not_mem_nil, or_false] at hrule
    rcases hrule with rfl | rfl | rfl | rfl | rfl <;> intro hh <;>
      first | rfl | cases hh
  obtain ⟨hcr, -, himp⟩ := scanEntries_same_target hx hscan
  obtain ⟨htl, e, he, hea, pt, hpt, hptne, hpteq⟩ := himp (by rw [hcr] at hst; exact hst)
  exact ⟨htl, e, by simpa using he, hea, pt, hpt, hptne, hpteq⟩

/-- Witness for C4's general clause at the concrete scenario. -/
theorem C4_detect_contradiction_witness :
    ∃ c, c4tracker.detect_contradiction "drop sword" (some "sword") = .ok (some c) ∧
      ((match (some "sword" : Option String) with
          | some s => pyLower s | none => "") ≠ "" ∧
        ∃ e ∈ lastN c4tracker.entries 20, e.action = c.previous_action ∧
          ∃ pt, prevTargetE e = .ok pt ∧ pt ≠ "" ∧
            pt = (match (some "sword" : Option String) with
              | some s => pyLower s | none => "")) :=
  ⟨⟨"contradiction", "drop sword", "take sword", some "sword",
    { action1 := "take", action2 := "drop", same_target := true }⟩, rfl,
   C4_detect_contradiction_same_target.2.2 c4tracker "drop sword" (some "sword")
     ⟨"contradiction", "drop sword", "take sword", some "sword",
       { action1 := "take", action2 := "drop", same_target := true }⟩
     rfl rfl rfl⟩

/-! ## C9: detect_cycles on a three-node cycle -/

/-- A graph with nodes `a → b → c → a` wired via Choice target ids. -/
def triangleGraph (a b c : String) : StoryGraph :=
  ((StoryGraph.add_node {}
      { id := a, choices := [{ text := "onward", target_node_id := some b }] }).add_node
    { id := b, choices := [{ text := "onward", target_node_id := some c }] }).add_node
    { id := c, choices := [{ text := "onward", target_node_id := some a }] }

theorem triangle_detect_cycles (a b c : String)
    (hab : a ≠ b) (hac : a ≠ c) (hbc : b ≠ c)
    (ha : a ≠ "") (hb : b ≠ "") (hc : c ≠ "") :
    (triangleGraph a b c).detect_cycles = [[a, b, c, a]] := by
  have hba := hab.symm
  have hca := hac.symm
  have hcb := hbc.symm
  have eab : (a == b) = false := beq_eq_false_iff_ne.mpr hab
  have eac : (a == c) = false := beq_eq_false_iff_ne.mpr hac
  have eba : (b == a) = false := beq_eq_false_iff_ne.mpr hba
  have ebc : (b == c) = false := beq_eq_false_iff_ne.mpr hbc
  have eca : (c == a) = false := beq_eq_false_iff_ne.mpr hca
  have ecb : (c == b) = false := beq_eq_false_iff_ne.mpr hcb
  simp [StoryGraph.detect_cycles, triangleGraph, StoryGraph.add_node, dictSet,
    dfsStep, StoryGraph.get_node, dictGet?, setAdd, pyIndex, List.indexOf,
    List.findIdx, List.findIdx.go, List.find?, List.erase,
    hab, hac, hbc, hba, hca, hcb, ha, hb, hc,
    eab, eac, eba, ebc, eca, ecb]

/-- C9.  For a StoryGraph whose nodes A, B, C are wired A→B→C→A via
Choice target ids, `detect_cycles` returns at least one cycle containing
all three node ids (for distinct, non-empty ids). -/
theorem C9_detect_cycles_triangle (a b c : String)
    (hab : a ≠ b) (hac : a ≠ c) (hbc : b ≠ c)
    (ha : a ≠ "") (hb : b ≠ "") (hc : c ≠ "") :
    ∃ cyc ∈ (triangleGraph a b c).detect_cycles, a ∈ cyc ∧ b ∈ cyc ∧ c ∈ cyc := by
  rw [triangle_detect_cycles a b c hab hac hbc ha hb hc]
  exact ⟨[a, b, c, a], List.mem_singleton.mpr rfl, by simp, by simp, by simp⟩

/-- Witness for C9 at concrete node ids. -/
theorem C9_detect_cycles_witness :
    ∃ cyc ∈ (triangleGraph "A" "B" "C").detect_cycles,
      "A" ∈ cyc ∧ "B" ∈ cyc ∧ "C" ∈ cyc :=
  C9_detect_cycles_triangle "A" "B" "C" (by decide) (by decide) (by decide)
    (by decide) (by decide) (by decide)

/-! ## C1: serialization round trips -/

/-- The result of pushing a node through `to_dict`/`from_dict`: only the
choice availability predicates (dropped by serialization) and duplicate
tags (deduplicated by `set(...)`) can change. -/
def nodeRT (n : StoryNode) : StoryNode :=
  { n with choices := n.choices.map (fun ch => Choice.from_dict ch.to_dict),
           tags := setOfList n.tags }

theorem nodeTypeName_round : ∀ nt : NodeType, NodeType.ofName nt.name = some nt := by
  intro nt; cases nt <;> rfl

theorem node_from_to (n : StoryNode) :
    StoryNode.from_dict n.to_dict = .ok (nodeRT n) := by
  unfold StoryNode.from_dict StoryNode.to_dict
  rw [nodeTypeName_round]
  unfold nodeRT
  rw [List.map_map]
  rfl

theorem mapM_from_to (ns : List (String × StoryNode)) :
    exceptMapM (fun kn => StoryNode.from_dict kn.2)
        (ns.map (fun kn => (kn.1, kn.2.to_dict))) =
      .ok (ns.map (fun kn => nodeRT kn.2)) := by
  induction ns with
  | nil => rfl
  | cons kn t ih => simp [exceptMapM, node_from_to, ih]

theorem add_node_fresh {g : StoryGraph} {n : StoryNode}
    (h : ∀ kn ∈ g.nodes, kn.1 ≠ n.id) :
    (g.add_node n).nodes = g.nodes ++ [(n.id, n)] := by
  have hany : (g.nodes.any fun p => p.1 == n.id) = false := by
    rw [List.any_eq_false]
    intro p hp
    simpa using h p hp
  unfold StoryGraph.add_node dictSet
  rw [hany]
  simp

theorem foldl_add_fresh :
    ∀ (ns : List StoryNode) (g : StoryGraph),
      (∀ n ∈ ns, ∀ kn ∈ g.nodes, kn.1 ≠ n.id) → (ns.map (·.id)).Nodup →
      (ns.foldl StoryGraph.add_node g).nodes =
        g.nodes ++ ns.map (fun n => (n.id, n))
  | [], g, _, _ => by simp
  | n :: t, g, hfresh, hnd => by
    rw [List.map_cons, List.nodup_cons] at hnd
    have hstep : (g.add_node n).nodes = g.nodes ++ [(n.id, n)] :=
      add_node_fresh (hfresh n (List.mem_cons_self n t))
    have hfresh' : ∀ m ∈ t, ∀ kn ∈ (g.add_node n).nodes, kn.1 ≠ m.id := by
      intro m hm kn hkn
      rw [hstep, List.mem_append] at hkn
      rcases hkn with hkn | hkn
      · exact hfresh m (List.mem_cons_of_mem n hm) kn hkn
      · rcases List.mem_singleton.mp hkn with rfl
        intro hcon
        apply hnd.1
        have hmn : m.id = n.id := by simpa using hcon.symm
        exact hmn ▸ List.mem_map_of_mem (·.id) hm
    rw [List.foldl_cons, foldl_add_fresh t (g.add_node n) hfresh' hnd.2, hstep]
    simp

theorem choice_to_from (d : ChoiceDict) : (Choice.from_dict d).to_dict = d := rfl

theorem nodeRT_choices_serial (n : StoryNode) :
    (nodeRT n).choices.map Choice.to_dict = n.choices.map Choice.to_dict := by
  unfold nodeRT
  rw [List.map_map]
  rfl

/-- C1.  `to_dict`/`from_dict` round trips: a StoryGraph (with the dict
invariants every graph built through `add_node` has: distinct keys, each
node stored under its own id) restores with the same node ids, texts, and
serialized choice sets; a HistoryTracker restores with identical entries
(hence entry count) and the same state-hash set; a Player restores with
identical inventory, current location, flags, and variables. -/
theorem C1_serialization_round_trip :
    (∀ g : StoryGraph, (g.nodes.map Prod.fst).Nodup →
      (∀ kn ∈ g.nodes, kn.2.id = kn.1) →
      ∃ g', StoryGraph.from_dict g.to_dict = .ok g' ∧
        g'.root_id = g.root_id ∧
        g'.nodes.map Prod.fst = g.nodes.map Prod.fst ∧
        g'.nodes.map (fun kn => kn.2.id) = g.nodes.map (fun kn => kn.2.id) ∧
        g'.nodes.map (fun kn => kn.2.text) = g.nodes.map (fun kn => kn.2.text) ∧
        g'.nodes.map (fun kn => kn.2.choices.map Choice.to_dict) =
          g.nodes.map (fun kn => kn.2.choices.map Choice.to_dict)) ∧
    (∀ t : HistoryTracker,
      (HistoryTracker.from_dict t.to_dict).entries = t.entries ∧
      (HistoryTracker.from_dict t.to_dict).entries.length = t.entries.length ∧
      ∀ h, h ∈ (HistoryTracker.from_dict t.to_dict).state_hashes ↔
        h ∈ t.state_hashes) ∧
    (∀ p : Player,
      (Player.from_dict p.to_dict).inventory = p.inventory ∧
      (Player.from_dict p.to_dict).current_location = p.current_location ∧
      (Player.from_dict p.to_dict).flags = p.flags ∧
      (Player.from_dict p.to_dict).vars = p.vars) := by
  refine ⟨?_, ?_, ?_⟩
  · intro g hkeys hid
    have hids : ((g.nodes.map (fun kn => nodeRT kn.2)).map (·.id)).Nodup := by
      rw [List.map_map]
      have heq : (g.nodes.map fun kn => (nodeRT kn.2).id) = g.nodes.map Prod.fst :=
        List.map_congr_left (fun kn hkn => hid kn hkn)
      rw [show ((fun x : StoryNode => x.id) ∘ fun kn : String × StoryNode =>
        nodeRT kn.2) = fun kn : String × StoryNode => (nodeRT kn.2).id from rfl, heq]
      exact hkeys
    have hfold := foldl_add_fresh (g.nodes.map (fun kn => nodeRT kn.2)) {}
      (by intro n _ kn hkn; cases hkn) hids
    have hn : (List.foldl StoryGraph.add_node {}
        (g.nodes.map fun kn => nodeRT kn.2)).nodes =
        g.nodes.map (fun kn => (kn.1, nodeRT kn.2)) := by
      rw [hfold]
      simp only [List.nil_append, List.map_map]
      apply List.map_congr_left
      intro kn hkn
      show ((nodeRT kn.2).id, nodeRT kn.2) = (kn.1, nodeRT kn.2)
      rw [show (nodeRT kn.2).id = kn.2.id from rfl, hid kn hkn]
    have hmain : StoryGraph.from_dict g.to_dict =
        .ok { nodes := g.nodes.map (fun kn => (kn.1, nodeRT kn.2)),
              root_id := g.root_id } := by
      unfold StoryGraph.from_dict StoryGraph.to_dict
      rw [mapM_from_to]
      simp only [exc_bind_ok, Except.ok.injEq, StoryGraph.mk.injEq]
      exact ⟨hn, trivial⟩
    refine ⟨_, hmain, rfl, ?_, ?_, ?_, ?_⟩
    · rw [List.map_map]; rfl
    · rw [List.map_map]; rfl
    · rw [List.map_map]; rfl
    · rw [List.map_map]
      exact List.map_congr_left (fun kn _ => nodeRT_choices_serial kn.2)
  · intro t
    have hent : (HistoryTracker.from_dict t.to_dict).entries = t.entries := by
      unfold HistoryTracker.from_dict HistoryTracker.to_dict
      rw [List.map_map]
      exact List.map_id'' (fun e => rfl) t.entries
    refine ⟨hent, by rw [hent], fun h => ?_⟩
    exact mem_setOfList
  · intro p
    exact ⟨rfl, rfl, rfl, rfl⟩

/-- The node of the concrete C1 witness graph. -/
def c1node : StoryNode :=
  { id := "n", text := "hello",
    choices := [{ text := "Go on", target_node_id := some "m", action := "go" }] }

/-- A concrete single-node graph built through `add_node`. -/
def c1graph : StoryGraph := StoryGraph.add_node {} c1node

/-- Witness for C1's graph clause at a concrete graph. -/
theorem C1_serialization_witness :
    ∃ g', StoryGraph.from_dict c1graph.to_dict = .ok g' ∧
      g'.root_id = c1graph.root_id ∧
      g'.nodes.map Prod.fst = c1graph.nodes.map Prod.fst ∧
      g'.nodes.map (fun kn => kn.2.id) = c1graph.nodes.map (fun kn => kn.2.id) ∧
      g'.nodes.map (fun kn => kn.2.text) = c1graph.nodes.map (fun kn => kn.2.text) ∧
      g'.nodes.map (fun kn => kn.2.choices.map Choice.to_dict) =
        c1graph.nodes.map (fun kn => kn.2.choices.map Choice.to_dict) :=
  C1_serialization_round_trip.1 c1graph (by decide)
    (by intro kn hkn; rcases List.mem_singleton.mp hkn with rfl; rfl)

/-! ## Totality and frame lemmas for the paradox-handling path -/

theorem exc_bind_ok_inv {m : Except ε α} {f : α → Except ε β} {b : β}
    (h : (m >>= f) = .ok b) : ∃ a, m = .ok a ∧ f a = .ok b := by
  cases m with
  | error e => exact absurd h (by simp)
  | ok a => exact ⟨a, rfl, h⟩

theorem mem_dictSet {l : List (String × α)} {k : String} {v : α}
    {kn : String × α} (h : kn ∈ dictSet l k v) : kn.2 = v ∨ kn ∈ l := by
  unfold dictSet at h
  split at h
  · obtain ⟨p, hp, hpe⟩ := List.mem_map.mp h
    split at hpe
    · rw [← hpe]
      exact Or.inl rfl
    · exact Or.inr (hpe ▸ hp)
  · rcases List.mem_append.mp h with h | h
    · exact Or.inr h
    · rcases List.mem_singleton.mp h with rfl
      exact Or.inl rfl

theorem dictGet?_mem {l : List (String × α)} {k : String} {v : α}
    (h : dictGet? l k = some v) : ∃ k2, (k2, v) ∈ l := by
  unfold dictGet? at h
  rcases hf : l.find? (fun p => p.1 == k) with _ | p
  · rw [hf] at h
    exact absurd h (by simp)
  · rw [hf] at h
    obtain rfl : p.2 = v := by simpa using h
    exact ⟨p.1, by simpa using List.mem_of_find?_eq_some hf⟩

/-- `_generate_paradox_resolution` always succeeds (both choice pools are
nonempty literals). -/
theorem generate_paradox_resolution_ok (r : RNG) (p : Paradox) (pl : Player) :
    ∃ text r2,
      StoryGenerator.generate_paradox_resolution r p pl = .ok (text, r2) := by
  simp only [StoryGenerator.generate_paradox_resolution, randChoice, exc_bind_ok]
  split
  · simp only [get_random_surreal_event, surrealEvents, randChoice, exc_bind_ok]
    exact ⟨_, _, rfl⟩
  · exact ⟨_, _, rfl⟩

/-- `_rewrite_node` leaves everything but the rewrite counter and the graph
unchanged. -/
theorem rewrite_node_frame {σ σ' : Engine} {node : StoryNode} {p : Paradox}
    (h : σ.rewrite_node node p = .ok σ') :
    σ'.player = σ.player ∧ σ'.paradox_count = σ.paradox_count ∧
      σ'.history = σ.history ∧ σ'.current_node = σ.current_node ∧
      σ'.next_uuid = σ.next_uuid ∧ σ'.rng = σ.rng ∧
      σ'.rewrite_count = σ.rewrite_count + 1 := by
  simp only [Engine.rewrite_node] at h
  obtain ⟨n2, hrw, h⟩ := exc_bind_ok_inv h
  injection h with h
  subst h
  exact ⟨rfl, rfl, rfl, rfl, rfl, rfl, rfl⟩

/-- The affected-nodes loop of `_handle_paradox` leaves everything but the
rewrite counter and the graph unchanged, and never shrinks the counter. -/
theorem rewriteAffected_frame {p : Paradox} :
    ∀ (l : List String) {σ σ' : Engine}, rewriteAffected p σ l = .ok σ' →
      σ'.player = σ.player ∧ σ'.paradox_count = σ.paradox_count ∧
        σ'.history = σ.history ∧ σ'.current_node = σ.current_node ∧
        σ'.next_uuid = σ.next_uuid ∧ σ.rewrite_count ≤ σ'.rewrite_count := by
  intro l
  induction l with
  | nil =>
    intro σ σ' h
    injection h with h
    subst h
    exact ⟨rfl, rfl, rfl, rfl, rfl, Nat.le_refl _⟩
  | cons nid rest ih =>
    intro σ σ' h
    simp only [rewriteAffected] at h
    cases hg : σ.story_graph.get_node nid with
    | none =>
      rw [hg] at h
      exact ih h
    | some node =>
      rw [hg] at h
      simp only [exc_bind_ok] at h
      obtain ⟨σ₁, hrn, h⟩ := exc_bind_ok_inv h
      obtain ⟨hp, hc, hh, hn, hu, hr, hrc⟩ := rewrite_node_frame hrn
      obtain ⟨hp2, hc2, hh2, hn2, hu2, hrc2⟩ := ih h
      refine ⟨hp2.trans hp, hc2.trans hc, hh2.trans hh, hn2.trans hn,
        hu2.trans hu, ?_⟩
      rw [hrc] at hrc2
      exact Nat.le_trans (Nat.le_succ _) hrc2

/-- Every node stored in the engine's graph has an appendable (or absent)
`rewrite_history`; the engine itself only ever stores lists there, so the
invariant holds on every reachable state. -/
def EngineNodesWF (σ : Engine) : Prop :=
  ∀ kn ∈ σ.story_graph.nodes, RewriteHistOK kn.2

/-- `_rewrite_node` succeeds on a well-formed node and preserves the graph
invariant. -/
theorem rewrite_node_wf_ok {σ : Engine} {node : StoryNode} {p : Paradox}
    (hwf : EngineNodesWF σ) (hn : RewriteHistOK node) :
    ∃ σ', σ.rewrite_node node p = .ok σ' ∧ EngineNodesWF σ' := by
  simp only [Engine.rewrite_node]
  obtain ⟨n2, hrw⟩ := rewrite_ok hn
    (if p.paradox_type = .TEMPORAL_LOOP then
      node.text ++ "\n\n[The narrative shifts subtly. This moment is different now, though you can’t quite say how.]"
    else if p.paradox_type = .CONTRADICTION then
      node.text ++ "\n\n[Reality rewrites itself. The contradiction resolves into a strange new truth that somehow makes sense.]"
    else node.text ++ "\n\n[The story adjusts itself...]")
    p.paradox_type.name
  rw [hrw]
  simp only [exc_bind_ok]
  refine ⟨_, rfl, ?_⟩
  intro kn hkn
  rcases mem_dictSet hkn with h | h
  · rw [h]
    exact (rewrite_fields hrw).2.2.2.2.2
  · exact hwf kn h

/-- The affected-nodes loop succeeds on a well-formed graph and preserves
the invariant. -/
theorem rewriteAffected_ok {p : Paradox} :
    ∀ (l : List String) (σ : Engine), EngineNodesWF σ →
      ∃ σ', rewriteAffected p σ l = .ok σ' ∧ EngineNodesWF σ' := by
  intro l
  induction l with
  | nil => exact fun σ hwf => ⟨σ, rfl, hwf⟩
  | cons nid rest ih =>
    intro σ hwf
    simp only [rewriteAffected]
    cases hg : σ.story_graph.get_node nid with
    | none => exact ih σ hwf
    | some node =>
      have hn : RewriteHistOK node := by
        obtain ⟨k2, hmem⟩ := dictGet?_mem hg
        exact hwf (k2, node) hmem
      obtain ⟨σ₁, hrn, hwf₁⟩ := @rewrite_node_wf_ok σ node p hwf hn
      simp only [hrn, exc_bind_ok]
      exact ih σ₁ hwf₁

/-- `_handle_paradox` always succeeds on a well-formed graph. -/
theorem handle_paradox_ok (σ : Engine) (p : Paradox) (cmd : Command)
    (hwf : EngineNodesWF σ) :
    ∃ resp σ', σ.handle_paradox p cmd = .ok (resp, σ') := by
  simp only [Engine.handle_paradox]
  obtain ⟨text, r2, hg⟩ := generate_paradox_resolution_ok σ.rng p σ.player
  rw [hg]
  simp only [exc_bind_ok]
  obtain ⟨σ₂, hra, hwf₂⟩ :=
    rewriteAffected_ok p.affected_nodes
      { σ with paradox_count := σ.paradox_count + 1, rng := r2 } hwf
  rw [hra]
  simp only [exc_bind_ok]
  exact ⟨_, _, rfl⟩

/-- Fields of a successful `_handle_paradox` call: the response is a
paradox response reporting the paradox's type name and severity, the
player is untouched, the paradox counter is bumped once and the rewrite
counter never shrinks. -/
theorem handle_paradox_fields {σ : Engine} {p : Paradox} {cmd : Command}
    {resp : Response} {σ' : Engine}
    (h : σ.handle_paradox p cmd = .ok (resp, σ')) :
    resp.rtype = "paradox" ∧ resp.paradox_type = some p.paradox_type.name ∧
      resp.severity = some p.severity ∧ σ'.player = σ.player ∧
      σ'.paradox_count = σ.paradox_count + 1 ∧
      σ.rewrite_count ≤ σ'.rewrite_count := by
  simp only [Engine.handle_paradox] at h
  obtain ⟨⟨text, r2⟩, hg, h⟩ := exc_bind_ok_inv h
  simp only [] at h
  obtain ⟨σ₂, hra, h⟩ := exc_bind_ok_inv h
  obtain ⟨hp, hc, hh, hn, hu, hrc⟩ := rewriteAffected_frame p.affected_nodes hra
  injection h with h
  obtain ⟨rfl, rfl⟩ := Prod.mk.injEq .. ▸ h
  exact ⟨rfl, rfl, rfl, hp, hc, hrc⟩

/-- On a non-system command with a detected paradox, `process_input` is
exactly `_handle_paradox`. -/
theorem process_input_paradox {σ : Engine} {input : String} {p : Paradox}
    (hcmd : (CommandParser.parse input).is_command = false)
    (hdet : σ.detect_paradox (CommandParser.parse input) = .ok (some p)) :
    σ.process_input input = σ.handle_paradox p (CommandParser.parse input) := by
  simp only [Engine.process_input]
  rw [if_neg (by simp [hcmd]), hdet]
  simp only [exc_bind_ok]

/-- `Engine.init` always succeeds, starts from a fresh default player and
empty history, and its single start node has empty metadata. -/
theorem init_ok (rng : RNG) :
    ∃ σ₀, Engine.init rng = .ok σ₀ ∧ σ₀.player = Player.new ∧
      σ₀.history = ({} : HistoryTracker) ∧ EngineNodesWF σ₀ := by
  simp only [Engine.init, StoryGenerator.generate_intro, randChoice, exc_bind_ok]
  refine ⟨_, rfl, rfl, rfl, ?_⟩
  intro kn hkn
  rcases List.mem_singleton.mp hkn with rfl
  exact Or.inl rfl

/-- The paradox produced by `use anything` against an empty inventory. -/
def c2paradox : Paradox :=
  { paradox_type := .IMPOSSIBLE_STATE,
    description := "You try to use anything, but you don’t have it... or do you?",
    trigger_action := "use anything",
    severity := 5,
    metadata := [("missing_item", .pstr "anything")] }

/-- On a fresh-style state (default player, empty history), `use anything`
is detected as an IMPOSSIBLE_STATE paradox. -/
theorem detect_use_missing {σ : Engine} (hpl : σ.player = Player.new)
    (hh : σ.history = ({} : HistoryTracker)) :
    σ.detect_paradox (CommandParser.parse "use anything") =
      .ok (some c2paradox) := by
  simp only [Engine.detect_paradox, hpl, hh]
  rfl

/-- C2.  On a freshly initialized engine (whatever the random stream), the
player's inventory is empty, `process_input "use anything"` detects a
paradox of type IMPOSSIBLE_STATE whose `metadata["missing_item"]` equals
`"anything"` and whose severity is 5, and the returned response has type
`"paradox"`, `paradox_type "IMPOSSIBLE_STATE"` and severity 5. -/
theorem C2_impossible_state_use (rng : RNG) :
    ∃ σ₀, Engine.init rng = .ok σ₀ ∧ σ₀.player.inventory = [] ∧
      (∃ p, σ₀.detect_paradox (CommandParser.parse "use anything") =
          .ok (some p) ∧
        p.paradox_type = .IMPOSSIBLE_STATE ∧
        dictGet? p.metadata "missing_item" = some (.pstr "anything") ∧
        p.severity = 5) ∧
      (∃ resp σ', σ₀.process_input "use anything" = .ok (resp, σ') ∧
        resp.rtype = "paradox" ∧
        resp.paradox_type = some "IMPOSSIBLE_STATE" ∧
        resp.severity = some 5) := by
  obtain ⟨σ₀, hinit, hpl, hh, hwf⟩ := init_ok rng
  have hdet := detect_use_missing hpl hh
  have hcmd : (CommandParser.parse "use anything").is_command = false := rfl
  refine ⟨σ₀, hinit, by rw [hpl]; rfl, ⟨c2paradox, hdet, rfl, rfl, rfl⟩, ?_⟩
  obtain ⟨resp, σ', hhp⟩ :=
    handle_paradox_ok σ₀ c2paradox (CommandParser.parse "use anything") hwf
  obtain ⟨h1, h2, h3, -, -, -⟩ := handle_paradox_fields hhp
  refine ⟨resp, σ', ?_, h1, by rw [h2]; rfl, by rw [h3]; rfl⟩
  rw [process_input_paradox hcmd hdet]
  exact hhp

/-- Witness for C2 at a concrete random stream. -/
theorem C2_impossible_state_use_witness :
    ∃ σ₀, Engine.init ⟨fun _ => 0, 0⟩ = .ok σ₀ ∧ σ₀.player.inventory = [] ∧
      (∃ p, σ₀.detect_paradox (CommandParser.parse "use anything") =
          .ok (some p) ∧
        p.paradox_type = .IMPOSSIBLE_STATE ∧
        dictGet? p.metadata "missing_item" = some (.pstr "anything") ∧
        p.severity = 5) ∧
      (∃ resp σ', σ₀.process_input "use anything" = .ok (resp, σ') ∧
        resp.rtype = "paradox" ∧
        resp.paradox_type = some "IMPOSSIBLE_STATE" ∧
        resp.severity = some 5) :=
  C2_impossible_state_use ⟨fun _ => 0, 0⟩

/-- Affected node `A` of the C10 scenario. -/
def c10nodeA : StoryNode := { id := "A" }

/-- Affected node `B` of the C10 scenario. -/
def c10nodeB : StoryNode := { id := "B" }

/-- A concrete engine state whose history is the alternating visit
sequence `A,B,A,B,...` of length 10, with both nodes present in the
graph: the next non-system input is detected as a node-loop paradox whose
affected nodes are rewritten in place. -/
def c10sigma : Engine :=
  { story_graph := StoryGraph.add_node (StoryGraph.add_node {} c10nodeA) c10nodeB,
    current_node := some c10nodeA,
    player := Player.new,
    history := trackerOfNodeIds ["A", "B", "A", "B", "A", "B", "A", "B", "A", "B"],
    paradox_count := 0, rewrite_count := 0,
    rng := ⟨fun _ => 0, 0⟩, next_uuid := 10 }

/-- The node-loop paradox detected on `c10sigma`. -/
def c10paradox : Paradox :=
  { paradox_type := .TEMPORAL_LOOP,
    description := "The story seems to be repeating itself...",
    affected_nodes := ["A", "B"],
    trigger_action := "look",
    severity := 7 }

/-- C10 counterexample: on the paradox-handling path the engine's rewrite
counter is also mutated (here it goes from 0 to 2, one bump per affected
node rewritten), so the claim's list of mutated engine fields — graph,
current node, history tracker, paradox counter only — is incomplete. -/
theorem C10_counterexample_rewrite_count :
    c10sigma.rewrite_count = 0 ∧
      ∃ resp σ', c10sigma.process_input "look" = .ok (resp, σ') ∧
        resp.rtype = "paradox" ∧ σ'.rewrite_count = 2 := by
  refine ⟨rfl, ?_⟩
  exact ⟨_, _, rfl, rfl, rfl⟩

/-- C10 (amended).  When `process_input` takes the paradox-handling path
(a non-system command for which a paradox is detected), the Player object
is left entirely unchanged — current location, inventory, visited
locations, choice history, action history, flags, variables, and the
length of `state_history` are the same after the call as before — and the
paradox counter is bumped exactly once.  (The original claim's assertion
that only the graph, current node, history tracker and paradox counter
are mutated is refuted by `C10_counterexample_rewrite_count`: the
engine's rewrite counter is also mutated when affected nodes are
rewritten.) -/
theorem C10_paradox_player_frame (σ : Engine) (input : String) (p : Paradox)
    (resp : Response) (σ' : Engine)
    (hcmd : (CommandParser.parse input).is_command = false)
    (hdet : σ.detect_paradox (CommandParser.parse input) = .ok (some p))
    (h : σ.process_input input = .ok (resp, σ')) :
    resp.rtype = "paradox" ∧ σ'.player = σ.player ∧
      σ'.player.current_location = σ.player.current_location ∧
      σ'.player.inventory = σ.player.inventory ∧
      σ'.player.visited_locations = σ.player.visited_locations ∧
      σ'.player.choice_history = σ.player.choice_history ∧
      σ'.player.action_history = σ.player.action_history ∧
      σ'.player.flags = σ.player.flags ∧
      σ'.player.vars = σ.player.vars ∧
      σ'.player.state_history.length = σ.player.state_history.length ∧
      σ'.paradox_count = σ.paradox_count + 1 := by
  rw [process_input_paradox hcmd hdet] at h
  obtain ⟨h1, -, -, hp, hc, -⟩ := handle_paradox_fields h
  exact ⟨h1, hp, by rw [hp], by rw [hp], by rw [hp], by rw [hp], by rw [hp],
    by rw [hp], by rw [hp], by rw [hp], hc⟩

/-- Witness for the amended C10 at the concrete looping state. -/
theorem C10_paradox_player_frame_witness :
    ∃ resp σ', c10sigma.process_input "look" = .ok (resp, σ') ∧
      resp.rtype = "paradox" ∧ σ'.player = c10sigma.player ∧
      σ'.paradox_count = c10sigma.paradox_count + 1 := by
  obtain ⟨resp, σ', h⟩ :
      ∃ resp σ', c10sigma.process_input "look" = .ok (resp, σ') :=
    ⟨_, _, rfl⟩
  obtain ⟨h1, h2, h3⟩ :=
    (C10_paradox_player_frame c10sigma "look" c10paradox resp σ' rfl rfl h).imp
      id (And.imp id (fun hrest => hrest.2.2.2.2.2.2.2.2))
  exact ⟨resp, σ', h, h1, h2, h3⟩

/-! ## C3: totality of `process_input` under normal-play states -/

theorem pyJoinVerbs_ok :
    ∀ {l : List (Option String)}, (∀ x ∈ l, x ≠ none) →
      ∃ s, pyJoinVerbs l = .ok s
  | [], _ => ⟨[], rfl⟩
  | none :: t, h => absurd rfl (h none (List.mem_cons_self none t))
  | some s :: t, h => by
    obtain ⟨tl, htl⟩ := pyJoinVerbs_ok (fun x hx => h x (List.mem_cons_of_mem _ hx))
    exact ⟨s :: tl, by simp [pyJoinVerbs, htl]⟩

/-- A detected action loop is drawn from the recorded action pattern. -/
theorem detect_action_loop_mem {p : Player} {w : Nat}
    {loop : List (Option String)} (h : p.detect_action_loop w = some loop) :
    ∀ x ∈ loop, x ∈ p.get_action_pattern := by
  simp only [Player.detect_action_loop] at h
  split at h
  · exact absurd h (by simp)
  · split at h
    · injection h with h
      subst h
      intro x hx
      exact List.drop_subset _ _ hx
    · exact absurd h (by simp)

theorem scanEntries_ok (rule : ContradictionRule) (al tl a : String)
    (tgt : Option String) :
    ∀ l : List HistoryEntry, (∀ e ∈ l, ∃ s, prevTargetE e = .ok s) →
      ∃ o, scanEntries rule al tl a tgt l = .ok o
  | [], _ => ⟨none, rfl⟩
  | e :: rest, h => by
    obtain ⟨s, hs⟩ := h e (List.mem_cons_self e rest)
    obtain ⟨o, ho⟩ := scanEntries_ok rule al tl a tgt rest
      (fun x hx => h x (List.mem_cons_of_mem _ hx))
    simp only [scanEntries, hs, exc_bind_ok]
    split
    · split
      · split
        · exact ⟨_, rfl⟩
        · exact ⟨o, ho⟩
      · split
        · exact ⟨_, rfl⟩
        · exact ⟨o, ho⟩
    · exact ⟨o, ho⟩

theorem ruleScan_ok (entriesRev : List HistoryEntry) (al tl a : String)
    (tgt : Option String)
    (h : ∀ e ∈ entriesRev, ∃ s, prevTargetE e = .ok s) :
    ∀ rules : List ContradictionRule,
      ∃ o, ruleScan entriesRev al tl a tgt rules = .ok o
  | [] => ⟨none, rfl⟩
  | rule :: rest => by
    obtain ⟨o, ho⟩ := scanEntries_ok rule al tl a tgt entriesRev h
    obtain ⟨o2, ho2⟩ := ruleScan_ok entriesRev al tl a tgt h rest
    simp only [ruleScan]
    split
    · rw [ho]
      simp only [exc_bind_ok]
      cases o with
      | some c => exact ⟨_, rfl⟩
      | none => exact ⟨o2, ho2⟩
    · exact ⟨o2, ho2⟩

theorem detect_contradiction_ok {t : HistoryTracker}
    (h : ∀ e ∈ t.entries, ∃ s, prevTargetE e = .ok s) (action : String)
    (tgt : Option String) :
    ∃ o, t.detect_contradiction action tgt = .ok o := by
  simp only [HistoryTracker.detect_contradiction]
  exact ruleScan_ok _ _ _ _ _
    (fun e he => h e (List.drop_subset _ _ (List.mem_reverse.mp he)))
    t.contradiction_rules

/-- `_detect_paradox` succeeds whenever the recorded action history holds
no `None` verbs and every history entry's `target` metadata is absent or a
string. -/
theorem detect_paradox_ok {σ : Engine} (cmd : Command)
    (hverbs : ∀ c ∈ σ.player.action_history, c.verb ≠ none)
    (hprev : ∀ e ∈ σ.history.entries, ∃ s, prevTargetE e = .ok s) :
    ∃ o, σ.detect_paradox cmd = .ok o := by
  simp only [Engine.detect_paradox]
  cases hal : σ.player.detect_action_loop 5 with
  | some loop =>
    have hm : ∀ x ∈ loop, x ≠ none := by
      intro x hx
      have hx2 := detect_action_loop_mem hal x hx
      simp only [Player.get_action_pattern, List.mem_map] at hx2
      obtain ⟨c, hc, rfl⟩ := hx2
      exact hverbs c hc
    obtain ⟨s, hs⟩ := pyJoinVerbs_ok hm
    simp only [hs, exc_bind_ok]
    exact ⟨_, rfl⟩
  | none =>
    cases hnl : σ.history.detect_node_loop 10 with
    | some nl => exact ⟨_, rfl⟩
    | none =>
      obtain ⟨o, ho⟩ := detect_contradiction_ok hprev
        (pyTrim (pyShowOptStr cmd.verb ++ " " ++ cmd.target.getD "")) cmd.target
      simp only [ho, exc_bind_ok]
      cases o with
      | some c => exact ⟨_, rfl⟩
      | none =>
        split
        all_goals try split
        all_goals try split
        all_goals try split
        all_goals exact ⟨_, rfl⟩

/-- Every template family in the verb table is nonempty. -/
theorem storyTemplates_val_ne_nil {target : Option String} {location : String}
    {k : String} {tv : List String}
    (h : (k, tv) ∈ storyTemplates target location) : tv ≠ [] := by
  simp only [storyTemplates, List.mem_cons, List.not_mem_nil, or_false] at h
  rcases h with h | h | h | h | h | h <;>
    · obtain ⟨-, rfl⟩ := Prod.mk.injEq .. ▸ h
      simp [goTemplates]

/-- `_generate_story_text` always succeeds: the verb's template family, or
the `go` fallback family, is nonempty. -/
theorem generate_story_text_ok (r : RNG) (verb target : Option String)
    (location : String) :
    ∃ text r2,
      Engine.generate_story_text r verb target location = .ok (text, r2) := by
  have hgone : goTemplates target location ≠ [] := by simp [goTemplates]
  have hgo : dictGetD (storyTemplates target location) "go" [] =
      goTemplates target location := rfl
  simp only [Engine.generate_story_text]
  cases verb with
  | none =>
    obtain ⟨text, r1, hc, -⟩ := @randChoice_ok String r _ (hgo.symm ▸ hgone)
    simp only [hc, exc_bind_ok, randBelow]
    split
    · obtain ⟨ev, r2, hev, -⟩ :=
        @randChoice_ok String r1.advance _
          (show surrealEvents ≠ [] from by simp [surrealEvents])
      simp only [get_random_surreal_event, hev, exc_bind_ok]
      exact ⟨_, _, rfl⟩
    · exact ⟨_, _, rfl⟩
  | some v =>
    have hne : dictGetD (storyTemplates target location) v
        (dictGetD (storyTemplates target location) "go" []) ≠ [] := by
      cases hl : dictGet? (storyTemplates target location) v with
      | none =>
        simp only [dictGetD, hl, Option.getD_none]
        exact hgone
      | some tv =>
        simp only [dictGetD, hl, Option.getD_some]
        obtain ⟨k2, hmem⟩ := dictGet?_mem hl
        exact storyTemplates_val_ne_nil hmem
    obtain ⟨text, r1, hc, -⟩ := @randChoice_ok String r _ hne
    simp only [hc, exc_bind_ok, randBelow]
    split
    · obtain ⟨ev, r2, hev, -⟩ :=
        @randChoice_ok String r1.advance _
          (show surrealEvents ≠ [] from by simp [surrealEvents])
      simp only [get_random_surreal_event, hev, exc_bind_ok]
      exact ⟨_, _, rfl⟩
    · exact ⟨_, _, rfl⟩

theorem generate_choices_ok (r : RNG) (location : String) (pl : Player) :
    ∃ cs r2, StoryGenerator.generate_choices r location pl = .ok (cs, r2) := by
  simp only [StoryGenerator.generate_choices, randInt]
  have hk : 2 + r.val % (4 - 2 + 1) ≤
      (["north", "south", "east", "west"] : List String).length := by
    have h3 := Nat.mod_lt r.val (show 0 < 4 - 2 + 1 by decide)
    simp only [List.length_cons, List.length_nil]
    omega
  obtain ⟨xs, r2, hs⟩ := randSample_ok _ _ r.advance hk
  simp only [hs, exc_bind_ok]
  exact ⟨_, _, rfl⟩

theorem get_location_in_direction_ok (r : RNG) (d : Option String) :
    ∃ loc r2, Engine.get_location_in_direction r d = .ok (loc, r2) := by
  have hall : allLocations ≠ [] := by simp [allLocations, locationDescriptions]
  simp only [Engine.get_location_in_direction]
  cases d with
  | none =>
    obtain ⟨x, r2, h, -⟩ := @randChoice_ok String r _ hall
    exact ⟨x, r2, h⟩
  | some s =>
    cases hl : dictGet? locationMap s with
    | none =>
      simp only [hl]
      obtain ⟨x, r2, h, -⟩ := @randChoice_ok String r _ hall
      exact ⟨x, r2, h⟩
    | some locs =>
      simp only [hl]
      have hne : locs ≠ [] := by
        obtain ⟨k2, hmem⟩ := dictGet?_mem hl
        simp only [locationMap, List.mem_cons, List.not_mem_nil, or_false] at hmem
        rcases hmem with h | h | h | h <;>
          · obtain ⟨-, rfl⟩ := Prod.mk.injEq .. ▸ h
            simp
      obtain ⟨x, r2, h, -⟩ := @randChoice_ok String r _ hne
      exact ⟨x, r2, h⟩

theorem generate_next_node_ok (σ : Engine) (cmd : Command) :
    ∃ node σ2, σ.generate_next_node cmd = .ok (node, σ2) := by
  simp only [Engine.generate_next_node, Engine.freshId]
  split
  · obtain ⟨loc, r1, hl⟩ :=
      get_location_in_direction_ok σ.rng (CommandParser.get_direction cmd.target)
    simp only [hl, exc_bind_ok]
    obtain ⟨text, r2, ht⟩ := generate_story_text_ok r1 cmd.verb cmd.target loc
    simp only [ht, exc_bind_ok]
    obtain ⟨cs, r3, hc⟩ := generate_choices_ok r2 loc σ.player
    simp only [hc, exc_bind_ok, randBelow, randChoice]
    split
    · exact ⟨_, _, rfl⟩
    · exact ⟨_, _, rfl⟩
  · simp only [exc_bind_ok]
    obtain ⟨text, r2, ht⟩ :=
      generate_story_text_ok σ.rng cmd.verb cmd.target σ.player.current_location
    simp only [ht, exc_bind_ok]
    obtain ⟨cs, r3, hc⟩ :=
      generate_choices_ok r2 σ.player.current_location σ.player
    simp only [hc, exc_bind_ok, randBelow, randChoice]
    split
    · exact ⟨_, _, rfl⟩
    · exact ⟨_, _, rfl⟩

theorem advance_story_ok (σ : Engine) (cmd : Command) :
    ∃ resp σ2, σ.advance_story cmd = .ok (resp, σ2) := by
  simp only [Engine.advance_story]
  set cid := (match σ.current_node with | some n => n.id | none => "unknown") with hcid
  obtain ⟨node, σ2, hg⟩ := generate_next_node_ok { σ with player := σ.player.record_choice cid cmd } cmd
  simp only [hg, exc_bind_ok]
  exact ⟨_, _, rfl⟩

/-- `process_input` totality under the normal-play invariants. -/
theorem process_input_ok (σ : Engine) (input : String)
    (hwf : EngineNodesWF σ)
    (hverbs : ∀ c ∈ σ.player.action_history, c.verb ≠ none)
    (hprev : ∀ e ∈ σ.history.entries, ∃ s, prevTargetE e = .ok s) :
    ∃ resp σ', σ.process_input input = .ok (resp, σ') := by
  simp only [Engine.process_input]
  split
  · exact ⟨_, _, rfl⟩
  · obtain ⟨o, ho⟩ := detect_paradox_ok (CommandParser.parse input) hverbs hprev
    simp only [ho, exc_bind_ok]
    cases o with
    | some p => exact handle_paradox_ok σ p (CommandParser.parse input) hwf
    | none => exact advance_story_ok σ (CommandParser.parse input)

/-- An unrecognized verb falls back to the `go` template family (and may
pick up a surreal suffix). -/
theorem generate_story_text_unknown_verb (r : RNG) (v : String)
    (target : Option String) (location : String)
    (hv : v ∉ ["go", "look", "take", "talk", "think", "listen"]) :
    ∃ text r2,
      Engine.generate_story_text r (some v) target location = .ok (text, r2) ∧
        (text ∈ goTemplates target location ∨
          ∃ t ∈ goTemplates target location, ∃ ev ∈ surrealEvents,
            text = t ++ "\n\n" ++ ev) := by
  have hgone : goTemplates target location ≠ [] := by simp [goTemplates]
  have hlook : dictGet? (storyTemplates target location) v = none := by
    simp only [List.mem_cons, List.not_mem_nil, or_false, not_or] at hv
    obtain ⟨h1, h2, h3, h4, h5, h6⟩ := hv
    have e1 : (("go" : String) == v) = false := beq_eq_false_iff_ne.mpr (Ne.symm h1)
    have e2 : (("look" : String) == v) = false := beq_eq_false_iff_ne.mpr (Ne.symm h2)
    have e3 : (("take" : String) == v) = false := beq_eq_false_iff_ne.mpr (Ne.symm h3)
    have e4 : (("talk" : String) == v) = false := beq_eq_false_iff_ne.mpr (Ne.symm h4)
    have e5 : (("think" : String) == v) = false := beq_eq_false_iff_ne.mpr (Ne.symm h5)
    have e6 : (("listen" : String) == v) = false := beq_eq_false_iff_ne.mpr (Ne.symm h6)
    simp [dictGet?, storyTemplates, List.find?, e1, e2, e3, e4, e5, e6]
  have heq : dictGetD (storyTemplates target location) v
      (dictGetD (storyTemplates target location) "go" []) =
      goTemplates target location := by
    simp only [dictGetD, hlook, Option.getD_none]
    rfl
  simp only [Engine.generate_story_text]
  obtain ⟨t0, r1, hc, hmem⟩ := @randChoice_ok String r _ (heq.symm ▸ hgone)
  rw [heq] at hmem
  simp only [hc, exc_bind_ok, randBelow]
  split
  · obtain ⟨ev, r2, hev, hevm⟩ :=
      @randChoice_ok String r1.advance _
        (show surrealEvents ≠ [] from by simp [surrealEvents])
    simp only [get_random_surreal_event, hev, exc_bind_ok]
    exact ⟨_, _, rfl, Or.inr ⟨t0, hmem, ev, hevm, rfl⟩⟩
  · exact ⟨_, _, rfl, Or.inl hmem⟩

/-- An unrecognized direction falls back to a uniform draw over the full
known-location table. -/
theorem get_location_unknown_direction (r : RNG) (d : String)
    (hd : dictGet? locationMap d = none) :
    Engine.get_location_in_direction r (some d) = randChoice r allLocations ∧
      ∃ loc r2, Engine.get_location_in_direction r (some d) = .ok (loc, r2) ∧
        loc ∈ allLocations := by
  have he : Engine.get_location_in_direction r (some d) =
      randChoice r allLocations := by
    simp only [Engine.get_location_in_direction, hd]
  obtain ⟨loc, r2, h, hm⟩ := @randChoice_ok String r _
    (show allLocations ≠ [] from by simp [allLocations, locationDescriptions])
  exact ⟨he, loc, r2, he.trans h, hm⟩

/-- C3.  Under the normal-play state invariants — every recorded command
has a verb, every history entry's `target` metadata is absent or a
string, and every stored node's `rewrite_history` supports append (all of
which hold on the states the engine itself produces from recognized-verb
play) — `process_input` returns a response for every input string and
never raises; an unrecognized verb falls back to the generic `go`
template family (possibly with a surreal suffix appended), and an
unrecognized direction falls back to a uniformly random known location. -/
theorem C3_process_input_total_and_fallbacks :
    (∀ (σ : Engine) (input : String),
      EngineNodesWF σ →
      (∀ c ∈ σ.player.action_history, c.verb ≠ none) →
      (∀ e ∈ σ.history.entries, ∃ s, prevTargetE e = .ok s) →
      ∃ resp σ', σ.process_input input = .ok (resp, σ')) ∧
    (∀ (r : RNG) (v : String) (target : Option String) (location : String),
      v ∉ ["go", "look", "take", "talk", "think", "listen"] →
      ∃ text r2,
        Engine.generate_story_text r (some v) target location = .ok (text, r2) ∧
          (text ∈ goTemplates target location ∨
            ∃ t ∈ goTemplates target location, ∃ ev ∈ surrealEvents,
              text = t ++ "\n\n" ++ ev)) ∧
    (∀ (r : RNG) (d : String), dictGet? locationMap d = none →
      Engine.get_location_in_direction r (some d) = randChoice r allLocations ∧
        ∃ loc r2, Engine.get_location_in_direction r (some d) = .ok (loc, r2) ∧
          loc ∈ allLocations) :=
  ⟨fun σ input hwf hverbs hprev => process_input_ok σ input hwf hverbs hprev,
   fun r v target location hv =>
     generate_story_text_unknown_verb r v target location hv,
   fun r d hd => get_location_unknown_direction r d hd⟩

/-- A minimal engine state satisfying the normal-play invariants
vacuously. -/
def c3sigma : Engine :=
  { story_graph := {}, current_node := none, player := Player.new,
    history := {}, paradox_count := 0, rewrite_count := 0,
    rng := ⟨fun _ => 0, 0⟩, next_uuid := 0 }

/-- Witness for C3 at concrete inputs: an unrecognized two-word command,
the unknown verb `dance`, and the unknown direction `up`. -/
theorem C3_process_input_witness :
    (∃ resp σ', c3sigma.process_input "dance wildly" = .ok (resp, σ')) ∧
    (∃ text r2,
      Engine.generate_story_text ⟨fun _ => 0, 0⟩ (some "dance") none
          "the void" = .ok (text, r2) ∧
        (text ∈ goTemplates none "the void" ∨
          ∃ t ∈ goTemplates none "the void", ∃ ev ∈ surrealEvents,
            text = t ++ "\n\n" ++ ev)) ∧
    (Engine.get_location_in_direction ⟨fun _ => 0, 0⟩ (some "up") =
        randChoice ⟨fun _ => 0, 0⟩ allLocations ∧
      ∃ loc r2, Engine.get_location_in_direction ⟨fun _ => 0, 0⟩ (some "up") =
          .ok (loc, r2) ∧ loc ∈ allLocations) := by
  obtain ⟨h1, h2, h3⟩ := C3_process_input_total_and_fallbacks
  refine ⟨h1 c3sigma "dance wildly" ?_ ?_ ?_,
    h2 ⟨fun _ => 0, 0⟩ "dance" none "the void" (by decide),
    h3 ⟨fun _ => 0, 0⟩ "up" rfl⟩
  · intro kn hkn
    exact absurd hkn (List.not_mem_nil kn)
  · intro c hc
    exact absurd hc (List.not_mem_nil c)
  · intro e he
    exact absurd he (List.not_mem_nil e)
